import Mathlib

/-!
# Verification of the ToolJet application import/export service

Shallow embedding of `AppImportExportService` (app import/export engine):
`export`, `import`, `createImportedAppForUser`, `buildImportedAppAssociations`,
`setEditingVersionAsLatestVersion`, `createAdminGroupPermissions`,
`convertToArrayOfKeyValuePairs`, `replaceDataQueryOptionsWithNewDataQueryIds`,
`replaceDataQueryIdWithinDefinitions`.

Identifiers (uuids in the source) are modelled as `Nat`; a JavaScript
property that can be `undefined` is modelled as an `Option`.  The entity
manager is modelled as an explicit `Store` record of row lists; `save`
appends a row, `update` rewrites the rows matching the criteria in place.
Id generation is a fresh counter on the store.  The transaction wrapper
`dbTransactionWrap` is all-or-nothing: a thrown exception is an
`Except.error` and no store is returned (nothing persisted).
-/

namespace ToolJet

/-! ## Event bindings, query options and version definitions -/

/-- An event binding: `{queryId: ...}` objects appearing in query options and
inside component definitions.  `queryId = none` models an absent/undefined
`queryId` property (falsy in the source's `if (event.queryId)` check). -/
structure Event where
  queryId : Option Nat
deriving DecidableEq, Repr

/-- `options` of a data query; `events` may be absent. -/
structure QueryOptions where
  events : Option (List Event)
deriving DecidableEq, Repr

/-- One entry of `component.definition.properties.actions.value`. -/
structure ActionEntry where
  events : Option (List Event)
deriving DecidableEq, Repr

/-- One entry of `component.definition.properties.columns.value`. -/
structure ColumnEntry where
  events : Option (List Event)
deriving DecidableEq, Repr

/-- `component.definition`: the direct event list, the action entries under
`properties.actions.value` and the column entries under
`properties.columns.value`; each may be absent. -/
structure ComponentDef where
  events : Option (List Event)
  actions : Option (List ActionEntry)
  columns : Option (List ColumnEntry)
deriving DecidableEq, Repr

/-- The inner `component` object of a definition node: `kind` is its
`component` string property (e.g. `"Table"`), `defn` its `definition`. -/
structure Component where
  kind : String
  defn : Option ComponentDef
deriving DecidableEq, Repr

/-- A version's `definition`: an optional keyed collection of component
nodes (`definition.components[id].component`). -/
structure Definition where
  components : Option (List (String × Component))
deriving DecidableEq, Repr

/-! ## Id mappings

The per-entity-kind old-id → new-id mapping tables are JavaScript objects;
assignment overwrites, lookup of an absent key yields `undefined`.  We model
them as association lists where `set` prepends (so lookup finds the newest
binding) and lookup returns an `Option`. -/

/-- JavaScript object lookup `m[k]`: `none` models `undefined`. -/
def idLookup (m : List (Nat × Nat)) (k : Nat) : Option Nat :=
  (m.find? (fun p => p.1 == k)).map (fun p => p.2)

/-- JavaScript object assignment `m[k] = v` (overwrites). -/
def idSet (m : List (Nat × Nat)) (k v : Nat) : List (Nat × Nat) :=
  (k, v) :: m

/-- `m[k]` where the key itself may be `undefined`: `obj[undefined]` is
`undefined` in JavaScript. -/
def idLookupOpt (m : List (Nat × Nat)) (k : Option Nat) : Option Nat :=
  k.bind (idLookup m)

/-! ## The remapping pass (Reference Remapper)

`replaceDataQueryOptionsWithNewDataQueryIds` and
`replaceDataQueryIdWithinDefinitions` both run the same per-event rewrite
(the source repeats the identical callback four times):

```js
if (event.queryId) { event.queryId = dataQueryMapping[event.queryId]; }
```

Note that when `event.queryId` is present but has no entry in the mapping,
the assignment stores `undefined` (here: `none`): the original id is
overwritten, not retained. -/

/-- The per-event rewrite shared by all four remap sites. -/
def remapEvent (m : List (Nat × Nat)) (e : Event) : Event :=
  match e.queryId with
  | none => e
  | some q => { queryId := idLookup m q }

/-- `replaceDataQueryOptionsWithNewDataQueryIds(options, dataQueryMapping)`:
rewrites `options.events` when both `options` and `options.events` are
present. -/
def replaceDataQueryOptionsWithNewDataQueryIds
    (options : Option QueryOptions) (dataQueryMapping : List (Nat × Nat)) :
    Option QueryOptions :=
  match options with
  | none => none
  | some o =>
    match o.events with
    | none => some o
    | some evs => some { o with events := some (evs.map (remapEvent dataQueryMapping)) }

/-- The `component?.definition?.properties?.actions?.value` rewrite: each
action entry's `events`, when present, is remapped. -/
def remapActionEntry (m : List (Nat × Nat)) (a : ActionEntry) : ActionEntry :=
  match a.events with
  | none => a
  | some evs => { events := some (evs.map (remapEvent m)) }

/-- The per-column rewrite, applied only to `Table`-kind components. -/
def remapColumnEntry (m : List (Nat × Nat)) (c : ColumnEntry) : ColumnEntry :=
  match c.events with
  | none => c
  | some evs => { events := some (evs.map (remapEvent m)) }

/-- The body of `replaceDataQueryIdWithinDefinitions` for one component
node: rewrite the direct event list, then every action entry, then — only
when `component.component === "Table"` — every column entry. -/
def remapComponent (m : List (Nat × Nat)) (c : Component) : Component :=
  match c.defn with
  | none => c
  | some d =>
    let d1 :=
      match d.events with
      | none => d
      | some evs => { d with events := some (evs.map (remapEvent m)) }
    let d2 :=
      match d1.actions with
      | none => d1
      | some acts => { d1 with actions := some (acts.map (remapActionEntry m)) }
    let d3 :=
      if c.kind = "Table" then
        match d2.columns with
        | none => d2
        | some cols => { d2 with columns := some (cols.map (remapColumnEntry m)) }
      else d2
    { c with defn := some d3 }

/-- `replaceDataQueryIdWithinDefinitions(definition, dataQueryMapping)`:
iterates the keys of `definition.components` (when present) and rewrites
each node's component in place. -/
def replaceDataQueryIdWithinDefinitions
    (definition : Option Definition) (dataQueryMapping : List (Nat × Nat)) :
    Option Definition :=
  match definition with
  | none => none
  | some d =>
    match d.components with
    | none => some d
    | some comps =>
      some { components := some (comps.map (fun kc => (kc.1, remapComponent dataQueryMapping kc.2))) }

/-! ## Rows and the store

Each entity table of the database is a list of rows kept in creation order
(`manager.save` of a fresh entity appends).  `created_at` timestamps are
therefore realised by list order; `updatedAt` is kept explicitly on app
versions because `setEditingVersionAsLatestVersion` observably rewrites it,
modelled by a monotone `clock` on the store.  Id generation (uuids in the
source) is the monotone `nextId` counter. -/

/-- One `{key, value, encrypted}` triple of the canonical options shape. -/
structure KeyValuePair where
  key : String
  value : Option String
  encrypted : Option Bool
deriving DecidableEq, Repr

/-- A storage-ready option bag (the canonical options representation). -/
abbrev OptionsBag := List KeyValuePair

/-- A value of a legacy inline `options` object: `{value, encrypted}`. -/
structure LegacyOptionValue where
  value : Option String
  encrypted : Option Bool
deriving DecidableEq, Repr

structure AppRow where
  id : Nat
  name : Option String
  organizationId : Nat
  userId : Nat
  slug : Option Nat
  isPublic : Bool
  currentVersionId : Option Nat
deriving DecidableEq, Repr

structure AppVersionRow where
  id : Nat
  appId : Nat
  name : Option String
  definition : Option Definition
  updatedAt : Nat
deriving DecidableEq, Repr

structure AppEnvironmentRow where
  id : Nat
  appVersionId : Option Nat
  name : Option String
  isDefault : Option Bool
deriving DecidableEq, Repr

structure DataSourceRow where
  id : Nat
  name : Option String
  kind : Option String
  appVersionId : Option Nat
deriving DecidableEq, Repr

structure DataSourceOptionsRow where
  id : Nat
  environmentId : Option Nat
  dataSourceId : Option Nat
  options : Option OptionsBag
deriving DecidableEq, Repr

structure DataQueryRow where
  id : Nat
  name : Option String
  kind : Option String
  dataSourceId : Option Nat
  options : Option QueryOptions
deriving DecidableEq, Repr

structure GroupPermissionRow where
  id : Nat
  organizationId : Nat
  group : String
deriving DecidableEq, Repr

structure AppGroupPermissionRow where
  id : Nat
  groupPermissionId : Nat
  appId : Nat
  read : Bool
  update : Bool
  delete : Bool
deriving DecidableEq, Repr

/-- The entity manager's database. -/
structure Store where
  nextId : Nat
  clock : Nat
  apps : List AppRow
  appVersions : List AppVersionRow
  appEnvironments : List AppEnvironmentRow
  dataSources : List DataSourceRow
  dataSourceOptions : List DataSourceOptionsRow
  dataQueries : List DataQueryRow
  groupPermissions : List GroupPermissionRow
  appGroupPermissions : List AppGroupPermissionRow
deriving DecidableEq, Repr

/-- Allocate a fresh id. -/
def Store.fresh (st : Store) : Nat × Store :=
  (st.nextId, { st with nextId := st.nextId + 1 })

/-- Read `new Date()` off the monotone clock. -/
def Store.tick (st : Store) : Nat × Store :=
  (st.clock, { st with clock := st.clock + 1 })

/-- The requesting user: only `id` and `organizationId` are read. -/
structure UserCtx where
  id : Nat
  organizationId : Nat
deriving DecidableEq, Repr

/-! ## The exporter (`export`) -/

inductive ExportErr where
  /-- A property access on `undefined` (`getOne` found no row) — a crash,
  not a handled error. -/
  | typeError
  /-- A `NotFoundException`.  Named here for the specification's error
  taxonomy; the service itself never raises it. -/
  | notFound
deriving DecidableEq, Repr

/-- The snapshot document assembled by `export`. -/
structure Snapshot where
  app : AppRow
  appVersions : List AppVersionRow
  dataSources : List DataSourceRow
  dataQueries : List DataQueryRow
  appEnvironments : List AppEnvironmentRow
  dataSourceOptions : List DataSourceOptionsRow
deriving DecidableEq, Repr

/-- SQL `col IN (list)`: a NULL column never matches. -/
def memIds (ids : List Nat) (x : Option Nat) : Bool :=
  match x with
  | none => false
  | some a => ids.contains a

/-- `export(user, id)`.  Looks up the app by id and the caller's
organization, then loads versions, data sources, data queries,
environments and data-source options in creation order (store lists are
kept in `created_at ASC` order, matching the source's `orderBy`).  When
`getOne` finds nothing, the subsequent `appToExport.id` access throws a
`TypeError`.  (`export` is a Lean keyword, hence the name `exportApp`.) -/
def exportApp (st : Store) (user : UserCtx) (id : Nat) : Except ExportErr Snapshot :=
  match st.apps.find? (fun a => a.id == id && a.organizationId == user.organizationId) with
  | none => .error .typeError
  | some appToExport =>
    let appVersions := st.appVersions.filter (fun v => v.appId == appToExport.id)
    let versionIds := appVersions.map (fun v => v.id)
    let dataSources := st.dataSources.filter (fun s => memIds versionIds s.appVersionId)
    let sourceIds := dataSources.map (fun s => s.id)
    let dataQueries := st.dataQueries.filter (fun q => memIds sourceIds q.dataSourceId)
    let appEnvironments := st.appEnvironments.filter (fun e => memIds versionIds e.appVersionId)
    let envIds := appEnvironments.map (fun e => e.id)
    let dataSourceOptions := st.dataSourceOptions.filter (fun o => memIds envIds o.environmentId)
    .ok { app := appToExport, appVersions := appVersions, dataSources := dataSources,
          dataQueries := dataQueries, appEnvironments := appEnvironments,
          dataSourceOptions := dataSourceOptions }

/-! ## The snapshot as import input (`appParams`)

The importer reads the snapshot as loose JSON: every property may be
absent.  Absent top-level arrays are defaulted to `[]` by
`appParams?.xs || []`, so the typed shape carries plain lists. -/

structure InAppVersion where
  id : Nat
  name : Option String
  definition : Option Definition
deriving DecidableEq, Repr

structure InAppEnvironment where
  id : Nat
  versionId : Option Nat
  name : Option String
  isDefault : Option Bool
deriving DecidableEq, Repr

structure InDataSource where
  id : Nat
  name : Option String
  kind : Option String
  appVersionId : Option Nat
  /-- Legacy shape: an inline `options` object on the source itself. -/
  options : Option (List (String × LegacyOptionValue))
deriving DecidableEq, Repr

structure InDataSourceOption where
  environmentId : Option Nat
  dataSource : Option Nat
  options : Option OptionsBag
deriving DecidableEq, Repr

structure InDataQuery where
  id : Nat
  name : Option String
  kind : Option String
  dataSourceId : Option Nat
  options : Option QueryOptions
deriving DecidableEq, Repr

structure AppParams where
  name : Option String
  currentVersionId : Option Nat
  appVersions : List InAppVersion
  appEnvironments : List InAppEnvironment
  dataSources : List InDataSource
  dataSourceOptions : List InDataSourceOption
  dataQueries : List InDataQuery
deriving DecidableEq, Repr

/-! ## Legacy Shape Normalizer -/

/-- `convertToArrayOfKeyValuePairs(options)`: flatten a legacy inline
options object into `{key, value, encrypted}` triples. -/
def convertToArrayOfKeyValuePairs (options : List (String × LegacyOptionValue)) :
    List KeyValuePair :=
  options.map (fun p => { key := p.1, value := p.2.value, encrypted := p.2.encrypted })

/-- Modelled from the spec: `DataSourcesService.parseOptionsForCreate` is an
external collaborator (its code is not under src/); per the specification it
"normalizes a key/value/encrypted triple sequence into storage-ready
options", so it is modelled as producing the canonical option bag from the
triples. -/
def parseOptionsForCreate (pairs : List KeyValuePair) : OptionsBag :=
  pairs

/-- Lookup in the old-source-id → parsed-options mapping object. -/
def optsLookup (m : List (Nat × OptionsBag)) (k : Nat) : Option OptionsBag :=
  (m.find? (fun p => p.1 == k)).map (fun p => p.2)

/-- Assignment in the old-source-id → parsed-options mapping object. -/
def optsSet (m : List (Nat × OptionsBag)) (k : Nat) (v : OptionsBag) :
    List (Nat × OptionsBag) :=
  (k, v) :: m

/-! ## The importer (`import`) -/

/-- The mutable locals of `buildImportedAppAssociations`: the per-kind
mapping tables, threaded together with the store. -/
structure ImportCtx where
  store : Store
  dataSourceMapping : List (Nat × Nat)
  dataSourceOptionsMapping : List (Nat × OptionsBag)
  dataQueryMapping : List (Nat × Nat)
  appVersionMapping : List (Nat × Nat)
  appEnvironmentMapping : List (Nat × Nat)
  appDefaultEnvironmentMapping : List (Nat × Nat)
deriving DecidableEq, Repr

/-- `createImportedAppForUser(manager, appParams, user)`: the shell
application — fresh id, `slug: null`, `isPublic: false`, name from the
input, organization and user from the caller. -/
def createImportedAppForUser (st : Store) (appParams : AppParams) (user : UserCtx) :
    AppRow × Store :=
  let fr := st.fresh
  let importedApp : AppRow :=
    { id := fr.1, name := appParams.name, organizationId := user.organizationId,
      userId := user.id, slug := none, isPublic := false, currentVersionId := none }
  (importedApp, { fr.2 with apps := fr.2.apps ++ [importedApp] })

/-- Body of the first loop (`create new app versions`): save the new
version; when the input has no environment entries at all, synthesize the
default `production` environment and record it under the input version's
original id; when the input version's id equals the declared current
version id, point the application's `currentVersionId` at the new version;
record the version id mapping. -/
def importAppVersion (importedApp : AppRow) (appParams : AppParams)
    (s : ImportCtx) (appVersion : InAppVersion) : ImportCtx :=
  let fr := s.store.fresh
  let vid := fr.1
  let tk := fr.2.tick
  let version : AppVersionRow :=
    { id := vid, appId := importedApp.id, name := appVersion.name,
      definition := appVersion.definition, updatedAt := tk.1 }
  let st := { tk.2 with appVersions := tk.2.appVersions ++ [version] }
  let stDef :=
    if appParams.appEnvironments.length = 0 then
      let fe := st.fresh
      let env : AppEnvironmentRow :=
        { id := fe.1, appVersionId := some vid, name := some "production",
          isDefault := some true }
      ({ fe.2 with appEnvironments := fe.2.appEnvironments ++ [env] },
       idSet s.appDefaultEnvironmentMapping appVersion.id fe.1)
    else (st, s.appDefaultEnvironmentMapping)
  let st2 :=
    if appParams.currentVersionId = some appVersion.id then
      let apps2 := stDef.1.apps.map
        (fun a => if a.id = importedApp.id then { a with currentVersionId := some vid } else a)
      { stDef.1 with apps := apps2 }
    else stDef.1
  { s with store := st2,
           appDefaultEnvironmentMapping := stDef.2,
           appVersionMapping := idSet s.appVersionMapping appVersion.id vid }

/-- Body of the environment loop: create the new environment row and record
the environment id mapping.  (The source runs this for every input
environment on every version iteration.) -/
def importAppEnvironment (s : ImportCtx) (appEnvironment : InAppEnvironment) : ImportCtx :=
  let fr := s.store.fresh
  let env : AppEnvironmentRow :=
    { id := fr.1,
      appVersionId := idLookupOpt s.appVersionMapping appEnvironment.versionId,
      name := appEnvironment.name, isDefault := appEnvironment.isDefault }
  { s with store := { fr.2 with appEnvironments := fr.2.appEnvironments ++ [env] },
           appEnvironmentMapping := idSet s.appEnvironmentMapping appEnvironment.id fr.1 }

/-- Body of the data source loop: first capture legacy inline options (old
shape) into `dataSourceOptionsMapping`; then skip the source if it declares
a version affinity for a different version (`continue`); otherwise create
the new source bound to the current version's new id and record the source
id mapping. -/
def importDataSource (appVersion : InAppVersion) (s : ImportCtx) (source : InDataSource) :
    ImportCtx :=
  let optMap :=
    match source.options with
    | none => s.dataSourceOptionsMapping
    | some legacyOptions =>
      optsSet s.dataSourceOptionsMapping source.id
        (parseOptionsForCreate (convertToArrayOfKeyValuePairs legacyOptions))
  let s1 := { s with dataSourceOptionsMapping := optMap }
  let skip : Bool :=
    match source.appVersionId with
    | some a => a != appVersion.id
    | none => false
  if skip then s1
  else
    let appVersionId := idLookup s1.appVersionMapping appVersion.id
    let fr := s1.store.fresh
    let newSource : DataSourceRow :=
      { id := fr.1, name := source.name, kind := source.kind, appVersionId := appVersionId }
    { s1 with store := { fr.2 with dataSources := fr.2.dataSources ++ [newSource] },
              dataSourceMapping := idSet s1.dataSourceMapping source.id fr.1 }

/-- Body of the legacy-options materialization loop (runs when the input
declared no standalone data-source-options): one `DataSourceOptions` row
per input source, bound to the version's default environment and — as
written in the source — to `source.id`, the source's *original* id, with
the captured parsed options (absent when the source had none). -/
def materializeLegacyOption (appVersion : InAppVersion) (s : ImportCtx) (source : InDataSource) :
    ImportCtx :=
  let fr := s.store.fresh
  let dsOption : DataSourceOptionsRow :=
    { id := fr.1,
      environmentId := idLookup s.appDefaultEnvironmentMapping appVersion.id,
      dataSourceId := some source.id,
      options := optsLookup s.dataSourceOptionsMapping source.id }
  { s with store := { fr.2 with dataSourceOptions := fr.2.dataSourceOptions ++ [dsOption] } }

/-- Body of the standalone data-source-options loop: copy the option bag
verbatim, remapping the environment id and the data source id. -/
def importDataSourceOption (s : ImportCtx) (dataSourceOption : InDataSourceOption) : ImportCtx :=
  let fr := s.store.fresh
  let dsOption : DataSourceOptionsRow :=
    { id := fr.1,
      environmentId := idLookupOpt s.appEnvironmentMapping dataSourceOption.environmentId,
      dataSourceId := idLookupOpt s.dataSourceMapping dataSourceOption.dataSource,
      options := dataSourceOption.options }
  { s with store := { fr.2 with dataSourceOptions := fr.2.dataSourceOptions ++ [dsOption] } }

/-- Body of the data query creation loop: create the new query (options
copied verbatim, source id remapped), record the query id mapping, and
collect the new query's id (`newDataQueries`). -/
def importDataQuery (acc : ImportCtx × List Nat) (query : InDataQuery) :
    ImportCtx × List Nat :=
  let s := acc.1
  let fr := s.store.fresh
  let newQuery : DataQueryRow :=
    { id := fr.1, name := query.name, kind := query.kind,
      dataSourceId := idLookupOpt s.dataSourceMapping query.dataSourceId,
      options := query.options }
  ({ s with store := { fr.2 with dataQueries := fr.2.dataQueries ++ [newQuery] },
            dataQueryMapping := idSet s.dataQueryMapping query.id fr.1 },
   acc.2 ++ [fr.1])

/-- Body of the remap loop over `newDataQueries`: rewrite the stored
query's options through `replaceDataQueryOptionsWithNewDataQueryIds` and
save.  -/
def remapNewDataQuery (s : ImportCtx) (qid : Nat) : ImportCtx :=
  let qs := s.store.dataQueries.map
    (fun q => if q.id = qid then
        { q with options := replaceDataQueryOptionsWithNewDataQueryIds q.options s.dataQueryMapping }
      else q)
  { s with store := { s.store with dataQueries := qs } }

/-- Tail of each version iteration: load the new version row and rewrite
its definition through `replaceDataQueryIdWithinDefinitions`.  (The first
loop mapped every input version id, so the lookup always succeeds; the
`none` branch is unreachable.) -/
def updateVersionDefinition (s : ImportCtx) (appVersion : InAppVersion) : ImportCtx :=
  match idLookup s.appVersionMapping appVersion.id with
  | none => s
  | some vid =>
    let vs := s.store.appVersions.map
      (fun v => if v.id = vid then
          { v with definition := replaceDataQueryIdWithinDefinitions v.definition s.dataQueryMapping }
        else v)
    { s with store := { s.store with appVersions := vs } }

/-- Body of the second per-version loop: environments, data sources,
legacy-options materialization (only when no standalone options were
declared; the source's `&& dataSourceOptionsMapping` conjunct is an object
and always truthy), standalone options, query creation, query remapping,
and the definition rewrite. -/
def importVersionAssociations (appParams : AppParams) (s : ImportCtx)
    (appVersion : InAppVersion) : ImportCtx :=
  let s1 := appParams.appEnvironments.foldl importAppEnvironment s
  let s2 := appParams.dataSources.foldl (importDataSource appVersion) s1
  let s3 :=
    if appParams.dataSourceOptions.length = 0 then
      appParams.dataSources.foldl (materializeLegacyOption appVersion) s2
    else s2
  let s4 := appParams.dataSourceOptions.foldl importDataSourceOption s3
  let acc := appParams.dataQueries.foldl importDataQuery (s4, [])
  let s5 := acc.2.foldl remapNewDataQuery acc.1
  updateVersionDefinition s5 appVersion

/-- `setEditingVersionAsLatestVersion(manager, appVersionMapping,
appVersions)`: nothing on an empty version list; otherwise touch
`updatedAt` of the version created for the *last* input version. -/
def setEditingVersionAsLatestVersion (st : Store) (appVersionMapping : List (Nat × Nat))
    (appVersions : List InAppVersion) : Store :=
  match appVersions.getLast? with
  | none => st
  | some lastVersionFromImport =>
    let lastVersionIdToUpdate := idLookup appVersionMapping lastVersionFromImport.id
    let tk := st.tick
    let vs := tk.2.appVersions.map
      (fun v => if some v.id = lastVersionIdToUpdate then { v with updatedAt := tk.1 } else v)
    { tk.2 with appVersions := vs }

/-- `buildImportedAppAssociations(manager, importedApp, appParams)`. -/
def buildImportedAppAssociations (st : Store) (importedApp : AppRow)
    (appParams : AppParams) : Store :=
  let s0 : ImportCtx :=
    { store := st, dataSourceMapping := [], dataSourceOptionsMapping := [],
      dataQueryMapping := [], appVersionMapping := [],
      appEnvironmentMapping := [], appDefaultEnvironmentMapping := [] }
  let s1 := appParams.appVersions.foldl (importAppVersion importedApp appParams) s0
  let s2 := appParams.appVersions.foldl (importVersionAssociations appParams) s1
  setEditingVersionAsLatestVersion s2.store s2.appVersionMapping appParams.appVersions

/-- `createAdminGroupPermissions(manager, app)`: find the organization's
`admin` group-permission records; the loop body ends in `return`, so only
the first record receives the `{read, update, delete}=true` grant. -/
def createAdminGroupPermissions (st : Store) (app : AppRow) : Store :=
  let orgDefaultGroupPermissions := st.groupPermissions.filter
    (fun g => g.organizationId == app.organizationId && g.group == "admin")
  match orgDefaultGroupPermissions with
  | [] => st
  | groupPermission :: _ =>
    let fr := st.fresh
    let appGroupPermission : AppGroupPermissionRow :=
      { id := fr.1, groupPermissionId := groupPermission.id, appId := app.id,
        read := true, update := true, delete := true }
    { fr.2 with appGroupPermissions := fr.2.appGroupPermissions ++ [appGroupPermission] }

/-- The transactional body of `import` plus the post-transaction slug
assignment: create the shell app, build associations, seed permissions,
then reload the app and persist `slug = id`.  Returns the final store and
the new application's id. -/
def importForUser (st : Store) (user : UserCtx) (appParams : AppParams) : Store × Nat :=
  let ca := createImportedAppForUser st appParams user
  let importedApp := ca.1
  let st1 := buildImportedAppAssociations ca.2 importedApp appParams
  let st2 := createAdminGroupPermissions st1 importedApp
  let apps3 := st2.apps.map
    (fun a => if a.id = importedApp.id then { a with slug := some importedApp.id } else a)
  ({ st2 with apps := apps3 }, importedApp.id)

/-! ## The dynamic top level of `import`

`import(user, appParams)` receives an arbitrary JSON value and guards with
`typeof appParams !== 'object'`.  The JavaScript dynamic types are modelled
by `JsInput`; note `typeof null === 'object'` and that arrays and objects
both carry typeof `"object"` (both decode to an `AppParams`, with absent
properties as `none`/`[]`). -/

inductive JsInput where
  | undef
  | boolVal (b : Bool)
  | numVal (n : Int)
  | strVal (s : String)
  | funcVal
  | nullVal
  | objectVal (p : AppParams)
deriving DecidableEq, Repr

def jsTypeof : JsInput → String
  | .undef => "undefined"
  | .boolVal _ => "boolean"
  | .numVal _ => "number"
  | .strVal _ => "string"
  | .funcVal => "function"
  | .nullVal => "object"
  | .objectVal _ => "object"

/-- `null` and `undefined` are not structured objects; neither are
primitives.  Only an (array or plain) object is. -/
def isStructuredObject : JsInput → Bool
  | .objectVal _ => true
  | _ => false

inductive ImportErr where
  /-- `BadRequestException("Invalid params for app import")`. -/
  | invalidInput
  /-- Reading a property of `null` throws a `TypeError` inside the
  transaction; nothing is persisted. -/
  | typeError
deriving DecidableEq, Repr

/-- `import(user, appParams)`.  The guard rejects every value whose
`typeof` is not `"object"`; `null` passes the guard (its `typeof` is
`"object"`) and then crashes on `appParams.name` before any save.  On
error no store is returned: the transaction persisted nothing.
(`import` is a Lean keyword, hence the name `importApp`.) -/
def importApp (st : Store) (user : UserCtx) (appParams : JsInput) :
    Except ImportErr (Store × Nat) :=
  if jsTypeof appParams ≠ "object" then .error .invalidInput
  else
    match appParams with
    | .objectVal p => .ok (importForUser st user p)
    | _ => .error .typeError

/-- Modelled from the spec: the serialized shape of the exported snapshot
document as it is consumed by `import` (the entity classes and the JSON
serialization are not under src/).  Per the specification's external
interface, a version entry carries `{id, name, definition}`, an
environment entry `{id, versionId, name, isDefault}`, a data source
`{id, name, kind, appVersionId, options?}` (a current-shape export carries
no inline `options`), a data-source-options entry
`{environmentId, dataSource, options}` and a data query
`{id, name, kind, dataSourceId, options}`. -/
def snapshotToParams (snap : Snapshot) : AppParams :=
  { name := snap.app.name,
    currentVersionId := snap.app.currentVersionId,
    appVersions := snap.appVersions.map
      (fun v => { id := v.id, name := v.name, definition := v.definition }),
    appEnvironments := snap.appEnvironments.map
      (fun e => { id := e.id, versionId := e.appVersionId, name := e.name,
                  isDefault := e.isDefault }),
    dataSources := snap.dataSources.map
      (fun s => { id := s.id, name := s.name, kind := s.kind,
                  appVersionId := s.appVersionId, options := none }),
    dataSourceOptions := snap.dataSourceOptions.map
      (fun o => { environmentId := o.environmentId, dataSource := o.dataSourceId,
                  options := o.options }),
    dataQueries := snap.dataQueries.map
      (fun q => { id := q.id, name := q.name, kind := q.kind,
                  dataSourceId := q.dataSourceId, options := q.options }) }

/-! ## Observers used by the theorems

These are specification-side observers (not part of the source): they
collect the event bindings of query options and of a version definition.
Per the data model, an event binding occurs in a query's
`options.events`, in a component's direct event list, in its action-list
entries, and — for table-kind components — in its column entries. -/

/-- The event bindings inside a data query's options. -/
def eventsOfQueryOptions (o : Option QueryOptions) : List Event :=
  match o with
  | none => []
  | some oo => oo.events.getD []

/-- The event bindings of one component: direct events, action-list
events, and (for table-kind components only) per-column events. -/
def boundEventsOfComponent (c : Component) : List Event :=
  match c.defn with
  | none => []
  | some d =>
    d.events.getD []
      ++ (d.actions.getD []).flatMap (fun a => a.events.getD [])
      ++ (if c.kind = "Table" then (d.columns.getD []).flatMap (fun col => col.events.getD []) else [])

/-- All event bindings of a version definition. -/
def boundEventsOfDefinition (d : Option Definition) : List Event :=
  match d with
  | none => []
  | some dd => (dd.components.getD []).flatMap (fun kc => boundEventsOfComponent kc.2)

/-- Does the binding's `queryId` (when present) land in `ids`? -/
def queryIdResolves (ids : List Nat) (e : Event) : Bool :=
  match e.queryId with
  | none => true
  | some c => ids.contains c

/-! ## Concrete fixtures for the counterexamples and witnesses -/

/-- An empty database whose id counter starts at 100. -/
def store0 : Store :=
  { nextId := 100, clock := 0, apps := [], appVersions := [], appEnvironments := [],
    dataSources := [], dataSourceOptions := [], dataQueries := [],
    groupPermissions := [], appGroupPermissions := [] }

/-- A requesting user of organization 2. -/
def user0 : UserCtx := { id := 1, organizationId := 2 }

/-- A legacy snapshot: one version, no environments, no standalone
data-source-options, one data source with inline options, one query. -/
def legacyImportParams : AppParams :=
  { name := some "app", currentVersionId := some 10,
    appVersions := [{ id := 10, name := some "v1", definition := none }],
    appEnvironments := [],
    dataSources := [{ id := 7, name := some "pg", kind := some "postgres",
                      appVersionId := none,
                      options := some [("host", { value := some "a", encrypted := some false })] }],
    dataSourceOptions := [],
    dataQueries := [{ id := 20, name := some "q", kind := some "sql",
                      dataSourceId := some 7,
                      options := some { events := some [{ queryId := some 20 }] } }] }

/-- A snapshot whose declared current version id (99) matches no version. -/
def noMatchParams : AppParams :=
  { name := some "app", currentVersionId := some 99,
    appVersions := [{ id := 10, name := some "v1", definition := none }],
    appEnvironments := [{ id := 30, versionId := some 10, name := some "production",
                          isDefault := some true }],
    dataSources := [], dataSourceOptions := [], dataQueries := [] }

/-- A database holding a two-version application (app 1 of organization 2
with versions 3 and 4, one environment, one data source, one query). -/
def twoVersionStore : Store :=
  { nextId := 100, clock := 0,
    apps := [{ id := 1, name := some "app", organizationId := 2, userId := 1,
               slug := some 1, isPublic := false, currentVersionId := some 3 }],
    appVersions := [{ id := 3, appId := 1, name := some "v1", definition := none, updatedAt := 0 },
                    { id := 4, appId := 1, name := some "v2", definition := none, updatedAt := 0 }],
    appEnvironments := [{ id := 5, appVersionId := some 3, name := some "production",
                          isDefault := some true }],
    dataSources := [{ id := 6, name := some "pg", kind := some "postgres", appVersionId := some 3 }],
    dataSourceOptions := [],
    dataQueries := [{ id := 7, name := some "q", kind := some "sql", dataSourceId := some 6,
                      options := none }],
    groupPermissions := [], appGroupPermissions := [] }

/-- A structured snapshot with an empty version list but non-empty
environment, data source and query lists. -/
def emptyVersionParams : AppParams :=
  { name := some "app", currentVersionId := none,
    appVersions := [],
    appEnvironments := [{ id := 30, versionId := some 10, name := some "production",
                          isDefault := some true }],
    dataSources := [{ id := 7, name := some "pg", kind := some "postgres",
                      appVersionId := some 10, options := none }],
    dataSourceOptions := [],
    dataQueries := [{ id := 20, name := some "q", kind := some "sql",
                      dataSourceId := some 7, options := none }] }

/-- An otherwise empty database holding two `admin` group-permission
records for organization 2. -/
def adminStore : Store :=
  { nextId := 100, clock := 0, apps := [], appVersions := [], appEnvironments := [],
    dataSources := [], dataSourceOptions := [], dataQueries := [],
    groupPermissions := [{ id := 8, organizationId := 2, group := "admin" },
                         { id := 12, organizationId := 2, group := "admin" }],
    appGroupPermissions := [] }

/-- A database whose only application (id 1) belongs to organization 9,
not to `user0`'s organization 2. -/
def orgMismatchStore : Store :=
  { nextId := 100, clock := 0,
    apps := [{ id := 1, name := some "app", organizationId := 9, userId := 3,
               slug := some 1, isPublic := false, currentVersionId := none }],
    appVersions := [], appEnvironments := [], dataSources := [], dataSourceOptions := [],
    dataQueries := [], groupPermissions := [], appGroupPermissions := [] }

/-- The application row of the round-trip fixture. -/
def rtApp : AppRow :=
  { id := 1, name := some "app", organizationId := 2, userId := 1,
    slug := some 1, isPublic := false, currentVersionId := some 3 }

/-- The single version of the round-trip fixture: its definition holds a
table component whose direct events and per-column events reference
query 7. -/
def rtComponentDef : ComponentDef :=
  { events := some [{ queryId := some 7 }],
    actions := none,
    columns := some [{ events := some [{ queryId := some 7 }] }] }

/-- The table component of the round-trip fixture. -/
def rtComponent : Component := { kind := "Table", defn := some rtComponentDef }

/-- The version definition of the round-trip fixture. -/
def rtDefinition : Definition := { components := some [("table1", rtComponent)] }

/-- The single version row of the round-trip fixture. -/
def rtVersionRow : AppVersionRow :=
  { id := 3, appId := 1, name := some "v1", definition := some rtDefinition,
    updatedAt := 0 }

/-- The environment of the round-trip fixture. -/
def rtEnv : AppEnvironmentRow :=
  { id := 5, appVersionId := some 3, name := some "production", isDefault := some true }

/-- The data source of the round-trip fixture. -/
def rtSource : DataSourceRow :=
  { id := 6, name := some "pg", kind := some "postgres", appVersionId := some 3 }

/-- The data-source-options row of the round-trip fixture. -/
def rtDso : DataSourceOptionsRow :=
  { id := 9, environmentId := some 5, dataSourceId := some 6,
    options := some [{ key := "host", value := some "a", encrypted := some false }] }

/-- The data query of the round-trip fixture: its options reference the
query itself (query 7). -/
def rtQuery : DataQueryRow :=
  { id := 7, name := some "q", kind := some "sql", dataSourceId := some 6,
    options := some { events := some [{ queryId := some 7 }] } }

/-- A database holding one complete single-version application of
organization 2. -/
def rtStore : Store :=
  { nextId := 100, clock := 0,
    apps := [rtApp],
    appVersions := [rtVersionRow],
    appEnvironments := [rtEnv],
    dataSources := [rtSource],
    dataSourceOptions := [rtDso],
    dataQueries := [rtQuery],
    groupPermissions := [], appGroupPermissions := [] }

/-- The snapshot `export` produces for `rtStore`'s application. -/
def rtSnap : Snapshot :=
  { app := rtApp, appVersions := [rtVersionRow], dataSources := [rtSource],
    dataQueries := [rtQuery], appEnvironments := [rtEnv],
    dataSourceOptions := [rtDso] }

/-! ## Generic fold lemmas -/

theorem foldl_proj_eq {σ α β : Type _} (f : σ → α → σ) (proj : σ → β)
    (h : ∀ s a, proj (f s a) = proj s) :
    ∀ (l : List α) (s : σ), proj (l.foldl f s) = proj s := by
  intro l
  induction l with
  | nil => intro s; rfl
  | cons x xs ih => intro s; rw [List.foldl_cons, ih, h]

theorem foldl_mono_nat {σ α : Type _} (f : σ → α → σ) (meas : σ → Nat)
    (h : ∀ s a, meas s ≤ meas (f s a)) :
    ∀ (l : List α) (s : σ), meas s ≤ meas (l.foldl f s) := by
  intro l
  induction l with
  | nil => intro s; exact Nat.le_refl _
  | cons x xs ih => intro s; exact Nat.le_trans (h s x) (ih (f s x))

/-! ## Basic facts about the shared per-event rewrite -/

theorem remapEvent_none (m : List (Nat × Nat)) :
    remapEvent m { queryId := none } = { queryId := none } := rfl

theorem remapEvent_some (m : List (Nat × Nat)) (q : Nat) :
    remapEvent m { queryId := some q } = { queryId := idLookup m q } := rfl

/-- `remapComponent` in closed form: events and action entries are always
rewritten; column entries only when the component kind is `Table`. -/
theorem remapComponent_eq (m : List (Nat × Nat)) (kind : String) (d : ComponentDef) :
    remapComponent m { kind := kind, defn := some d }
      = { kind := kind, defn := some {
            events := d.events.map (fun evs => evs.map (remapEvent m)),
            actions := d.actions.map (fun acts => acts.map (remapActionEntry m)),
            columns := if kind = "Table"
              then d.columns.map (fun cols => cols.map (remapColumnEntry m))
              else d.columns } } := by
  rcases d with ⟨evs, acts, cols⟩
  by_cases hk : kind = "Table" <;>
    cases evs <;> cases acts <;> cases cols <;>
    simp [remapComponent, hk]

/-! ## Claims -/

/-- C2, amended.  During import remapping — both in
`replaceDataQueryOptionsWithNewDataQueryIds` and in
`replaceDataQueryIdWithinDefinitions` — an event binding whose `queryId`
has no entry in the old-to-new query-id mapping is *not* left unchanged:
its `queryId` is overwritten with the result of the failed lookup, i.e.
cleared to undefined.  No error is raised (the rewrite is total); a
binding carrying no `queryId` at all is left unchanged. -/
theorem c2_unmapped_binding_cleared (m : List (Nat × Nat)) (q : Nat)
    (pre post : List Event) (kind k : String) (c : Component)
    (h : idLookup m q = none) :
    replaceDataQueryOptionsWithNewDataQueryIds
        (some { events := some (pre ++ { queryId := some q } :: post) }) m
      = some { events := some (pre.map (remapEvent m) ++ { queryId := none } :: post.map (remapEvent m)) }
    ∧ replaceDataQueryIdWithinDefinitions (some { components := some [(k, c)] }) m
      = some { components := some [(k, remapComponent m c)] }
    ∧ remapComponent m { kind := kind, defn := some ⟨some (pre ++ { queryId := some q } :: post), none, none⟩ }
      = { kind := kind, defn := some ⟨some (pre.map (remapEvent m) ++ { queryId := none } :: post.map (remapEvent m)), none, none⟩ }
    ∧ remapEvent m { queryId := none } = { queryId := none } := by
  refine ⟨?_, ?_, ?_, rfl⟩
  · simp [replaceDataQueryOptionsWithNewDataQueryIds, remapEvent, h]
  · simp [replaceDataQueryIdWithinDefinitions]
  · simp [remapComponent_eq, remapEvent, h]

/-- Witness for C2 at `m = []`, `q = 5`. -/
theorem c2_unmapped_binding_cleared_witness :
    idLookup [] 5 = none
    ∧ (replaceDataQueryOptionsWithNewDataQueryIds
          (some { events := some [{ queryId := some 5 }] }) []
        = some { events := some [{ queryId := none }] }
      ∧ replaceDataQueryIdWithinDefinitions
          (some { components := some [("c1", { kind := "Button", defn := some ⟨some [{ queryId := some 5 }], none, none⟩ })] }) []
        = some { components := some [("c1", remapComponent [] { kind := "Button", defn := some ⟨some [{ queryId := some 5 }], none, none⟩ })] }
      ∧ remapComponent [] { kind := "Button", defn := some ⟨some [{ queryId := some 5 }], none, none⟩ }
          = { kind := "Button", defn := some ⟨some [{ queryId := none }], none, none⟩ }
      ∧ remapEvent [] { queryId := none } = { queryId := none }) :=
  ⟨rfl, c2_unmapped_binding_cleared [] 5 [] [] "Button" "c1"
    { kind := "Button", defn := some ⟨some [{ queryId := some 5 }], none, none⟩ } rfl⟩

/-- C2, counterexample to the claim as stated: with an empty mapping, the
binding `{queryId: 5}` is *not* retained — it comes back cleared. -/
theorem c2_counterexample :
    replaceDataQueryOptionsWithNewDataQueryIds
        (some { events := some [{ queryId := some 5 }] }) []
      ≠ some { events := some [{ queryId := some 5 }] } := by
  decide

/-- C9.  `replaceDataQueryIdWithinDefinitions` rewrites the per-column
events only for components of the table kind: (a) a `Table` component has
its column entries rewritten (besides direct events and action entries);
(b) a column event whose `queryId` is present in the mapping receives the
new id; (c) for any non-`Table` kind the column entries are returned
untouched while direct events and action entries are still rewritten. -/
theorem c9_table_column_rewrite (m : List (Nat × Nat)) (q n : Nat)
    (hq : idLookup m q = some n) (k kind : String) (hk : kind ≠ "Table")
    (c : Component) (d : ComponentDef) (pre post : List Event) :
    replaceDataQueryIdWithinDefinitions (some { components := some [(k, c)] }) m
      = some { components := some [(k, remapComponent m c)] }
    ∧ remapComponent m { kind := "Table", defn := some d }
      = { kind := "Table", defn := some ⟨d.events.map (fun evs => evs.map (remapEvent m)), d.actions.map (fun acts => acts.map (remapActionEntry m)), d.columns.map (fun cols => cols.map (remapColumnEntry m))⟩ }
    ∧ remapColumnEntry m { events := some (pre ++ { queryId := some q } :: post) }
      = { events := some (pre.map (remapEvent m) ++ { queryId := some n } :: post.map (remapEvent m)) }
    ∧ remapComponent m { kind := kind, defn := some d }
      = { kind := kind, defn := some ⟨d.events.map (fun evs => evs.map (remapEvent m)), d.actions.map (fun acts => acts.map (remapActionEntry m)), d.columns⟩ } := by
  refine ⟨?_, ?_, ?_, ?_⟩
  · simp [replaceDataQueryIdWithinDefinitions]
  · simp [remapComponent_eq]
  · simp [remapColumnEntry, remapEvent, hq]
  · simp [remapComponent_eq, hk]

/-- Witness for C9 at `m = [(9, 105)]` with a `Table` and a `Button`
component, each holding one column whose event references query 9. -/
theorem c9_table_column_rewrite_witness :
    idLookup [(9, 105)] 9 = some 105
    ∧ "Button" ≠ "Table"
    ∧ (replaceDataQueryIdWithinDefinitions
          (some { components := some [("c1", { kind := "Table", defn := some ⟨none, none, some [{ events := some [{ queryId := some 9 }] }]⟩ })] })
          [(9, 105)]
        = some { components := some [("c1", remapComponent [(9, 105)] { kind := "Table", defn := some ⟨none, none, some [{ events := some [{ queryId := some 9 }] }]⟩ })] }
      ∧ remapComponent [(9, 105)] { kind := "Table", defn := some ⟨none, none, some [{ events := some [{ queryId := some 9 }] }]⟩ }
          = { kind := "Table", defn := some ⟨none, none, some [{ events := some [{ queryId := some 105 }] }]⟩ }
      ∧ remapColumnEntry [(9, 105)] { events := some [{ queryId := some 9 }] }
          = { events := some [{ queryId := some 105 }] }
      ∧ remapComponent [(9, 105)] { kind := "Button", defn := some ⟨none, none, some [{ events := some [{ queryId := some 9 }] }]⟩ }
          = { kind := "Button", defn := some ⟨none, none, some [{ events := some [{ queryId := some 9 }] }]⟩ }) :=
  ⟨rfl, by decide,
    c9_table_column_rewrite [(9, 105)] 9 105 rfl "c1" "Button" (by decide)
      { kind := "Table", defn := some ⟨none, none, some [{ events := some [{ queryId := some 9 }] }]⟩ }
      ⟨none, none, some [{ events := some [{ queryId := some 9 }] }]⟩ [] []⟩

/-- C5, amended.  When the requested application does not belong to the
caller's organization, `export` does fail — but not with a `NotFound`
error: `getOne` yields nothing and the subsequent `appToExport.id` access
crashes with a `TypeError` (the service never raises `NotFoundException`). -/
theorem c5_export_outside_org (st : Store) (user : UserCtx) (id : Nat)
    (h : st.apps.all
      (fun a => !(a.id == id && a.organizationId == user.organizationId)) = true) :
    exportApp st user id = .error .typeError := by
  unfold exportApp
  have hnone : st.apps.find?
      (fun a => a.id == id && a.organizationId == user.organizationId) = none := by
    apply List.find?_eq_none.mpr
    intro a ha hpa
    have hall := List.all_eq_true.mp h a ha
    rw [hpa] at hall
    simp at hall
  rw [hnone]

/-- Witness for C5 on `orgMismatchStore` (app 1 lives in organization 9,
the caller is in organization 2). -/
theorem c5_export_outside_org_witness :
    orgMismatchStore.apps.all
      (fun a => !(a.id == 1 && a.organizationId == user0.organizationId)) = true
    ∧ exportApp orgMismatchStore user0 1 = .error .typeError :=
  ⟨by decide, c5_export_outside_org orgMismatchStore user0 1 (by decide)⟩

/-- C5, counterexample to the claim as stated: the failure is a
`TypeError`, not a `NotFound` error. -/
theorem c5_counterexample :
    exportApp orgMismatchStore user0 1 ≠ .error .notFound := by
  intro h
  have he : exportApp orgMismatchStore user0 1 = Except.error ExportErr.typeError := rfl
  rw [he] at h
  injection h with h2
  exact ExportErr.noConfusion h2

/-- C4, amended.  The guard `typeof appParams !== 'object'` rejects every
input whose JavaScript dynamic type is not `"object"` with the Invalid
Input error before anything is persisted (an error return carries no
store: the transaction persisted nothing).  `null`, however, *is* of
typeof `"object"`: it passes the guard and the import then crashes with a
`TypeError` when `appParams.name` is read — still before any entity is
created, but not with the Invalid Input error. -/
theorem c4_nonobject_rejected (st : Store) (user : UserCtx) (v : JsInput)
    (h : (jsTypeof v == "object") = false) :
    importApp st user v = .error .invalidInput
    ∧ importApp st user JsInput.nullVal = .error .typeError := by
  constructor
  · have hne : jsTypeof v ≠ "object" := by simpa using h
    simp [importApp, hne]
  · simp [importApp, jsTypeof]

/-- Witness for C4 at the string input `"oops"`. -/
theorem c4_nonobject_rejected_witness :
    (jsTypeof (JsInput.strVal "oops") == "object") = false
    ∧ (importApp store0 user0 (JsInput.strVal "oops") = .error .invalidInput
       ∧ importApp store0 user0 JsInput.nullVal = .error .typeError) :=
  ⟨by decide, c4_nonobject_rejected store0 user0 (JsInput.strVal "oops") (by decide)⟩

/-- C4, counterexample to the claim as stated: `null` is not a structured
object, yet import does not fail with the Invalid Input error (it fails
with a `TypeError` after passing the typeof guard). -/
theorem c4_counterexample :
    isStructuredObject JsInput.nullVal = false
    ∧ importApp store0 user0 JsInput.nullVal ≠ .error .invalidInput := by
  constructor
  · rfl
  · intro h
    have he : importApp store0 user0 JsInput.nullVal = Except.error ImportErr.typeError := rfl
    rw [he] at h
    injection h with h2
    exact ImportErr.noConfusion h2

/-- C3: the code contradicts the specified behavior.  On a legacy
snapshot (inline options, no standalone data-source-options, no
environments) the importer creates the one `DataSourceOptions` row
attached to the synthesized default environment (id 102 here) with the
converted options — but binds it to `source.id`, the data source's
*original* id 7 from the exporting system, not to the newly created
(remapped) source id 103, unlike the sibling standalone-options path
which goes through `dataSourceMapping`. -/
theorem c3_legacy_option_row_keeps_old_source_id :
    ((importForUser store0 user0 legacyImportParams).1.dataSourceOptions.map
        (fun o => (o.environmentId, o.dataSourceId, o.options))
      = [(some 102, some 7,
          some [{ key := "host", value := some "a", encrypted := some false }])])
    ∧ ((importForUser store0 user0 legacyImportParams).1.appEnvironments.map
        (fun e => (e.id, e.appVersionId, e.name, e.isDefault))
      = [(102, some 101, some "production", some true)])
    ∧ ((importForUser store0 user0 legacyImportParams).1.dataSources.map
        (fun s => s.id) = [103])
    ∧ (((importForUser store0 user0 legacyImportParams).1.dataSources.map
        (fun s => s.id)).contains 7 = false) := by
  decide

/-! ## Frame lemmas -/

theorem map_id_of_all {α : Type _} (l : List α) (f : α → α) (h : ∀ a ∈ l, f a = a) :
    l.map f = l := by
  induction l with
  | nil => rfl
  | cons x xs ih =>
    simp only [List.map_cons, h x (by simp)]
    rw [ih (fun a ha => h a (by simp [ha]))]

/-- `createAdminGroupPermissions` touches only `appGroupPermissions` (and
the id counter). -/
theorem createAdminGroupPermissions_frame (st : Store) (a : AppRow) :
    (createAdminGroupPermissions st a).apps = st.apps
    ∧ (createAdminGroupPermissions st a).appVersions = st.appVersions
    ∧ (createAdminGroupPermissions st a).appEnvironments = st.appEnvironments
    ∧ (createAdminGroupPermissions st a).dataSources = st.dataSources
    ∧ (createAdminGroupPermissions st a).dataSourceOptions = st.dataSourceOptions
    ∧ (createAdminGroupPermissions st a).dataQueries = st.dataQueries
    ∧ (createAdminGroupPermissions st a).groupPermissions = st.groupPermissions := by
  unfold createAdminGroupPermissions
  cases st.groupPermissions.filter
      (fun g => g.organizationId == a.organizationId && g.group == "admin") <;>
    simp [Store.fresh]

/-- With an empty version list, `buildImportedAppAssociations` is the
identity on the store. -/
theorem buildImportedAppAssociations_nil (st : Store) (app : AppRow) (p : AppParams)
    (hv : p.appVersions = []) :
    buildImportedAppAssociations st app p = st := by
  unfold buildImportedAppAssociations
  rw [hv]
  simp [setEditingVersionAsLatestVersion]

/-- C10.  A structured-object input whose version list is empty imports
successfully: only the shell application is created (no versions,
environments, data sources, options or queries — even when the input
carries such entries), the latest-version touch is skipped (the versions
table is untouched), and the new application's slug equals its own new
id. -/
theorem c10_empty_versions_shell_only (st : Store) (user : UserCtx) (p : AppParams)
    (hv : p.appVersions = [])
    (hfresh : st.apps.all (fun a => a.id != st.nextId) = true) :
    importApp st user (JsInput.objectVal p) = Except.ok (importForUser st user p)
    ∧ (importForUser st user p).2 = st.nextId
    ∧ (importForUser st user p).1.appVersions = st.appVersions
    ∧ (importForUser st user p).1.appEnvironments = st.appEnvironments
    ∧ (importForUser st user p).1.dataSources = st.dataSources
    ∧ (importForUser st user p).1.dataSourceOptions = st.dataSourceOptions
    ∧ (importForUser st user p).1.dataQueries = st.dataQueries
    ∧ (importForUser st user p).1.apps
      = st.apps ++ [{ id := st.nextId, name := p.name, organizationId := user.organizationId, userId := user.id, slug := some st.nextId, isPublic := false, currentVersionId := none }] := by
  have hguard : importApp st user (JsInput.objectVal p) = Except.ok (importForUser st user p) := by
    simp [importApp, jsTypeof]
  refine ⟨hguard, ?_⟩
  unfold importForUser createImportedAppForUser
  simp only [Store.fresh]
  rw [buildImportedAppAssociations_nil _ _ _ hv]
  have hframe := createAdminGroupPermissions_frame
    { st with nextId := st.nextId + 1,
              apps := st.apps ++ [{ id := st.nextId, name := p.name, organizationId := user.organizationId, userId := user.id, slug := none, isPublic := false, currentVersionId := none }] }
    { id := st.nextId, name := p.name, organizationId := user.organizationId, userId := user.id, slug := none, isPublic := false, currentVersionId := none }
  refine ⟨?_, ?_, ?_, ?_, ?_, ?_, ?_⟩
  · trivial
  · exact hframe.2.1
  · exact hframe.2.2.1
  · exact hframe.2.2.2.1
  · exact hframe.2.2.2.2.1
  · exact hframe.2.2.2.2.2.1
  · rw [hframe.1, List.map_append]
    have h1 : st.apps.map
        (fun a => if a.id = st.nextId then { a with slug := some st.nextId } else a) = st.apps := by
      apply map_id_of_all
      intro a ha
      have := List.all_eq_true.mp hfresh a ha
      simp only [bne_iff_ne, ne_eq] at this
      simp [this]
    rw [h1]
    simp

/-- Witness for C10 on `store0` and `emptyVersionParams` (which carries an
environment, a data source and a query, but no version). -/
theorem c10_empty_versions_shell_only_witness :
    emptyVersionParams.appVersions = ([] : List InAppVersion)
    ∧ store0.apps.all (fun a => a.id != store0.nextId) = true
    ∧ (importApp store0 user0 (JsInput.objectVal emptyVersionParams)
        = Except.ok (importForUser store0 user0 emptyVersionParams)
      ∧ (importForUser store0 user0 emptyVersionParams).2 = store0.nextId
      ∧ (importForUser store0 user0 emptyVersionParams).1.appVersions = store0.appVersions
      ∧ (importForUser store0 user0 emptyVersionParams).1.appEnvironments = store0.appEnvironments
      ∧ (importForUser store0 user0 emptyVersionParams).1.dataSources = store0.dataSources
      ∧ (importForUser store0 user0 emptyVersionParams).1.dataSourceOptions = store0.dataSourceOptions
      ∧ (importForUser store0 user0 emptyVersionParams).1.dataQueries = store0.dataQueries
      ∧ (importForUser store0 user0 emptyVersionParams).1.apps
        = store0.apps ++ [{ id := store0.nextId, name := emptyVersionParams.name, organizationId := user0.organizationId, userId := user0.id, slug := some store0.nextId, isPublic := false, currentVersionId := none }]) :=
  ⟨rfl, by decide,
    c10_empty_versions_shell_only store0 user0 emptyVersionParams rfl (by decide)⟩

/-! ### Per-step frame lemmas for the import folds -/

theorem importAppVersion_frame (app : AppRow) (p : AppParams) (s : ImportCtx)
    (x : InAppVersion) :
    (importAppVersion app p s x).store.dataSources = s.store.dataSources
    ∧ (importAppVersion app p s x).store.dataSourceOptions = s.store.dataSourceOptions
    ∧ (importAppVersion app p s x).store.dataQueries = s.store.dataQueries
    ∧ (importAppVersion app p s x).store.groupPermissions = s.store.groupPermissions
    ∧ (importAppVersion app p s x).store.appGroupPermissions = s.store.appGroupPermissions
    ∧ (importAppVersion app p s x).dataSourceMapping = s.dataSourceMapping
    ∧ (importAppVersion app p s x).dataSourceOptionsMapping = s.dataSourceOptionsMapping
    ∧ (importAppVersion app p s x).dataQueryMapping = s.dataQueryMapping
    ∧ (importAppVersion app p s x).appEnvironmentMapping = s.appEnvironmentMapping := by
  unfold importAppVersion
  split <;> split <;> simp [Store.fresh, Store.tick]

theorem importAppEnvironment_frame (s : ImportCtx) (x : InAppEnvironment) :
    (importAppEnvironment s x).store.apps = s.store.apps
    ∧ (importAppEnvironment s x).store.appVersions = s.store.appVersions
    ∧ (importAppEnvironment s x).store.dataSources = s.store.dataSources
    ∧ (importAppEnvironment s x).store.dataSourceOptions = s.store.dataSourceOptions
    ∧ (importAppEnvironment s x).store.dataQueries = s.store.dataQueries
    ∧ (importAppEnvironment s x).store.groupPermissions = s.store.groupPermissions
    ∧ (importAppEnvironment s x).store.appGroupPermissions = s.store.appGroupPermissions
    ∧ (importAppEnvironment s x).dataSourceMapping = s.dataSourceMapping
    ∧ (importAppEnvironment s x).dataSourceOptionsMapping = s.dataSourceOptionsMapping
    ∧ (importAppEnvironment s x).dataQueryMapping = s.dataQueryMapping
    ∧ (importAppEnvironment s x).appVersionMapping = s.appVersionMapping
    ∧ (importAppEnvironment s x).appDefaultEnvironmentMapping = s.appDefaultEnvironmentMapping := by
  unfold importAppEnvironment
  simp [Store.fresh]

theorem importDataSource_frame (v : InAppVersion) (s : ImportCtx) (x : InDataSource) :
    (importDataSource v s x).store.apps = s.store.apps
    ∧ (importDataSource v s x).store.appVersions = s.store.appVersions
    ∧ (importDataSource v s x).store.appEnvironments = s.store.appEnvironments
    ∧ (importDataSource v s x).store.dataSourceOptions = s.store.dataSourceOptions
    ∧ (importDataSource v s x).store.dataQueries = s.store.dataQueries
    ∧ (importDataSource v s x).store.groupPermissions = s.store.groupPermissions
    ∧ (importDataSource v s x).store.appGroupPermissions = s.store.appGroupPermissions
    ∧ (importDataSource v s x).dataQueryMapping = s.dataQueryMapping
    ∧ (importDataSource v s x).appVersionMapping = s.appVersionMapping
    ∧ (importDataSource v s x).appEnvironmentMapping = s.appEnvironmentMapping
    ∧ (importDataSource v s x).appDefaultEnvironmentMapping = s.appDefaultEnvironmentMapping := by
  unfold importDataSource
  dsimp only
  split <;> split <;>
    first
      | (split_ifs <;> simp [Store.fresh])
      | simp [Store.fresh]

theorem materializeLegacyOption_frame (v : InAppVersion) (s : ImportCtx) (x : InDataSource) :
    (materializeLegacyOption v s x).store.apps = s.store.apps
    ∧ (materializeLegacyOption v s x).store.appVersions = s.store.appVersions
    ∧ (materializeLegacyOption v s x).store.appEnvironments = s.store.appEnvironments
    ∧ (materializeLegacyOption v s x).store.dataSources = s.store.dataSources
    ∧ (materializeLegacyOption v s x).store.dataQueries = s.store.dataQueries
    ∧ (materializeLegacyOption v s x).store.groupPermissions = s.store.groupPermissions
    ∧ (materializeLegacyOption v s x).store.appGroupPermissions = s.store.appGroupPermissions
    ∧ (materializeLegacyOption v s x).dataSourceMapping = s.dataSourceMapping
    ∧ (materializeLegacyOption v s x).dataSourceOptionsMapping = s.dataSourceOptionsMapping
    ∧ (materializeLegacyOption v s x).dataQueryMapping = s.dataQueryMapping
    ∧ (materializeLegacyOption v s x).appVersionMapping = s.appVersionMapping
    ∧ (materializeLegacyOption v s x).appEnvironmentMapping = s.appEnvironmentMapping
    ∧ (materializeLegacyOption v s x).appDefaultEnvironmentMapping = s.appDefaultEnvironmentMapping := by
  unfold materializeLegacyOption
  simp [Store.fresh]

theorem importDataSourceOption_frame (s : ImportCtx) (x : InDataSourceOption) :
    (importDataSourceOption s x).store.apps = s.store.apps
    ∧ (importDataSourceOption s x).store.appVersions = s.store.appVersions
    ∧ (importDataSourceOption s x).store.appEnvironments = s.store.appEnvironments
    ∧ (importDataSourceOption s x).store.dataSources = s.store.dataSources
    ∧ (importDataSourceOption s x).store.dataQueries = s.store.dataQueries
    ∧ (importDataSourceOption s x).store.groupPermissions = s.store.groupPermissions
    ∧ (importDataSourceOption s x).store.appGroupPermissions = s.store.appGroupPermissions
    ∧ (importDataSourceOption s x).dataSourceMapping = s.dataSourceMapping
    ∧ (importDataSourceOption s x).dataSourceOptionsMapping = s.dataSourceOptionsMapping
    ∧ (importDataSourceOption s x).dataQueryMapping = s.dataQueryMapping
    ∧ (importDataSourceOption s x).appVersionMapping = s.appVersionMapping
    ∧ (importDataSourceOption s x).appEnvironmentMapping = s.appEnvironmentMapping
    ∧ (importDataSourceOption s x).appDefaultEnvironmentMapping = s.appDefaultEnvironmentMapping := by
  unfold importDataSourceOption
  simp [Store.fresh]

theorem importDataQuery_frame (acc : ImportCtx × List Nat) (x : InDataQuery) :
    (importDataQuery acc x).1.store.apps = acc.1.store.apps
    ∧ (importDataQuery acc x).1.store.appVersions = acc.1.store.appVersions
    ∧ (importDataQuery acc x).1.store.appEnvironments = acc.1.store.appEnvironments
    ∧ (importDataQuery acc x).1.store.dataSources = acc.1.store.dataSources
    ∧ (importDataQuery acc x).1.store.dataSourceOptions = acc.1.store.dataSourceOptions
    ∧ (importDataQuery acc x).1.store.groupPermissions = acc.1.store.groupPermissions
    ∧ (importDataQuery acc x).1.store.appGroupPermissions = acc.1.store.appGroupPermissions
    ∧ (importDataQuery acc x).1.dataSourceMapping = acc.1.dataSourceMapping
    ∧ (importDataQuery acc x).1.dataSourceOptionsMapping = acc.1.dataSourceOptionsMapping
    ∧ (importDataQuery acc x).1.appVersionMapping = acc.1.appVersionMapping
    ∧ (importDataQuery acc x).1.appEnvironmentMapping = acc.1.appEnvironmentMapping
    ∧ (importDataQuery acc x).1.appDefaultEnvironmentMapping = acc.1.appDefaultEnvironmentMapping := by
  unfold importDataQuery
  simp [Store.fresh]

theorem remapNewDataQuery_frame (s : ImportCtx) (qid : Nat) :
    (remapNewDataQuery s qid).store.apps = s.store.apps
    ∧ (remapNewDataQuery s qid).store.appVersions = s.store.appVersions
    ∧ (remapNewDataQuery s qid).store.appEnvironments = s.store.appEnvironments
    ∧ (remapNewDataQuery s qid).store.dataSources = s.store.dataSources
    ∧ (remapNewDataQuery s qid).store.dataSourceOptions = s.store.dataSourceOptions
    ∧ (remapNewDataQuery s qid).store.groupPermissions = s.store.groupPermissions
    ∧ (remapNewDataQuery s qid).store.appGroupPermissions = s.store.appGroupPermissions
    ∧ (remapNewDataQuery s qid).store.nextId = s.store.nextId
    ∧ (remapNewDataQuery s qid).dataSourceMapping = s.dataSourceMapping
    ∧ (remapNewDataQuery s qid).dataSourceOptionsMapping = s.dataSourceOptionsMapping
    ∧ (remapNewDataQuery s qid).dataQueryMapping = s.dataQueryMapping
    ∧ (remapNewDataQuery s qid).appVersionMapping = s.appVersionMapping
    ∧ (remapNewDataQuery s qid).appEnvironmentMapping = s.appEnvironmentMapping
    ∧ (remapNewDataQuery s qid).appDefaultEnvironmentMapping = s.appDefaultEnvironmentMapping := by
  unfold remapNewDataQuery
  simp

theorem updateVersionDefinition_frame (s : ImportCtx) (x : InAppVersion) :
    (updateVersionDefinition s x).store.apps = s.store.apps
    ∧ (updateVersionDefinition s x).store.appEnvironments = s.store.appEnvironments
    ∧ (updateVersionDefinition s x).store.dataSources = s.store.dataSources
    ∧ (updateVersionDefinition s x).store.dataSourceOptions = s.store.dataSourceOptions
    ∧ (updateVersionDefinition s x).store.dataQueries = s.store.dataQueries
    ∧ (updateVersionDefinition s x).store.groupPermissions = s.store.groupPermissions
    ∧ (updateVersionDefinition s x).store.appGroupPermissions = s.store.appGroupPermissions
    ∧ (updateVersionDefinition s x).store.nextId = s.store.nextId
    ∧ (updateVersionDefinition s x).dataSourceMapping = s.dataSourceMapping
    ∧ (updateVersionDefinition s x).dataSourceOptionsMapping = s.dataSourceOptionsMapping
    ∧ (updateVersionDefinition s x).dataQueryMapping = s.dataQueryMapping
    ∧ (updateVersionDefinition s x).appVersionMapping = s.appVersionMapping
    ∧ (updateVersionDefinition s x).appEnvironmentMapping = s.appEnvironmentMapping
    ∧ (updateVersionDefinition s x).appDefaultEnvironmentMapping = s.appDefaultEnvironmentMapping := by
  unfold updateVersionDefinition
  split <;> simp

theorem setEditingVersionAsLatestVersion_frame (st : Store) (m : List (Nat × Nat))
    (l : List InAppVersion) :
    (setEditingVersionAsLatestVersion st m l).apps = st.apps
    ∧ (setEditingVersionAsLatestVersion st m l).appEnvironments = st.appEnvironments
    ∧ (setEditingVersionAsLatestVersion st m l).dataSources = st.dataSources
    ∧ (setEditingVersionAsLatestVersion st m l).dataSourceOptions = st.dataSourceOptions
    ∧ (setEditingVersionAsLatestVersion st m l).dataQueries = st.dataQueries
    ∧ (setEditingVersionAsLatestVersion st m l).groupPermissions = st.groupPermissions
    ∧ (setEditingVersionAsLatestVersion st m l).appGroupPermissions = st.appGroupPermissions
    ∧ (setEditingVersionAsLatestVersion st m l).nextId = st.nextId
    ∧ (setEditingVersionAsLatestVersion st m l).appVersions.map
        (fun w => (w.id, w.appId, w.name, w.definition))
      = st.appVersions.map (fun w => (w.id, w.appId, w.name, w.definition)) := by
  unfold setEditingVersionAsLatestVersion
  split <;> simp [Store.tick]
  intro a ha
  split <;> simp

/-- The per-version association pass never touches the applications table,
the permission tables, the version-id mapping or the default-environment
mapping. -/
theorem importVersionAssociations_stable (p : AppParams) (s : ImportCtx) (x : InAppVersion) :
    (importVersionAssociations p s x).store.apps = s.store.apps
    ∧ (importVersionAssociations p s x).store.groupPermissions = s.store.groupPermissions
    ∧ (importVersionAssociations p s x).store.appGroupPermissions = s.store.appGroupPermissions
    ∧ (importVersionAssociations p s x).appVersionMapping = s.appVersionMapping
    ∧ (importVersionAssociations p s x).appDefaultEnvironmentMapping
      = s.appDefaultEnvironmentMapping := by
  let P : ImportCtx → List AppRow × List GroupPermissionRow × List AppGroupPermissionRow × List (Nat × Nat) × List (Nat × Nat) :=
    fun c => (c.store.apps, c.store.groupPermissions, c.store.appGroupPermissions, c.appVersionMapping, c.appDefaultEnvironmentMapping)
  have henv : ∀ (l : List InAppEnvironment) (c : ImportCtx),
      P (l.foldl importAppEnvironment c) = P c := by
    refine foldl_proj_eq _ P ?_
    intro c a
    obtain ⟨h1, _, _, _, _, h6, h7, _, _, _, h11, h12⟩ := importAppEnvironment_frame c a
    simp [P, h1, h6, h7, h11, h12]
  have hsrc : ∀ (l : List InDataSource) (c : ImportCtx),
      P (l.foldl (importDataSource x) c) = P c := by
    refine foldl_proj_eq _ P ?_
    intro c a
    obtain ⟨h1, _, _, _, _, h6, h7, _, h9, _, h11⟩ := importDataSource_frame x c a
    simp [P, h1, h6, h7, h9, h11]
  have hmat : ∀ (l : List InDataSource) (c : ImportCtx),
      P (l.foldl (materializeLegacyOption x) c) = P c := by
    refine foldl_proj_eq _ P ?_
    intro c a
    obtain ⟨h1, _, _, _, _, h6, h7, _, _, _, h11, _, h13⟩ := materializeLegacyOption_frame x c a
    simp [P, h1, h6, h7, h11, h13]
  have hdso : ∀ (l : List InDataSourceOption) (c : ImportCtx),
      P (l.foldl importDataSourceOption c) = P c := by
    refine foldl_proj_eq _ P ?_
    intro c a
    obtain ⟨h1, _, _, _, _, h6, h7, _, _, _, h11, _, h13⟩ := importDataSourceOption_frame c a
    simp [P, h1, h6, h7, h11, h13]
  have hq : ∀ (l : List InDataQuery) (acc : ImportCtx × List Nat),
      P (l.foldl importDataQuery acc).1 = P acc.1 := by
    refine foldl_proj_eq _ (fun (acc : ImportCtx × List Nat) => P acc.1) ?_
    intro acc a
    obtain ⟨h1, _, _, _, _, h6, h7, _, _, h10, _, h12⟩ := importDataQuery_frame acc a
    simp [P, h1, h6, h7, h10, h12]
  have hrm : ∀ (l : List Nat) (c : ImportCtx),
      P (l.foldl remapNewDataQuery c) = P c := by
    refine foldl_proj_eq _ P ?_
    intro c a
    obtain ⟨h1, _, _, _, _, h6, h7, _, _, _, _, h12, _, h14⟩ := remapNewDataQuery_frame c a
    simp [P, h1, h6, h7, h12, h14]
  have hupd : ∀ (c : ImportCtx), P (updateVersionDefinition c x) = P c := by
    intro c
    obtain ⟨h1, _, _, _, _, h6, h7, _, _, _, _, h12, _, h14⟩ := updateVersionDefinition_frame c x
    simp [P, h1, h6, h7, h12, h14]
  have chain : P (importVersionAssociations p s x) = P s := by
    unfold importVersionAssociations
    dsimp only
    rw [hupd, hrm, hq]
    by_cases hlen : p.dataSourceOptions.length = 0
    · rw [if_pos hlen, hdso, hmat, hsrc, henv]
    · rw [if_neg hlen, hdso, hsrc, henv]
  simpa [P, Prod.ext_iff] using chain

/-- `buildImportedAppAssociations` never touches the permission tables. -/
theorem buildImportedAppAssociations_gp (st : Store) (app : AppRow) (p : AppParams) :
    (buildImportedAppAssociations st app p).groupPermissions = st.groupPermissions
    ∧ (buildImportedAppAssociations st app p).appGroupPermissions = st.appGroupPermissions := by
  let P : ImportCtx → List GroupPermissionRow × List AppGroupPermissionRow :=
    fun c => (c.store.groupPermissions, c.store.appGroupPermissions)
  have h1 : ∀ (l : List InAppVersion) (c : ImportCtx),
      P (l.foldl (importAppVersion app p) c) = P c := by
    refine foldl_proj_eq _ P ?_
    intro c a
    obtain ⟨_, _, _, h4, h5, _⟩ := importAppVersion_frame app p c a
    simp [P, h4, h5]
  have h2 : ∀ (l : List InAppVersion) (c : ImportCtx),
      P (l.foldl (importVersionAssociations p) c) = P c := by
    refine foldl_proj_eq _ P ?_
    intro c a
    obtain ⟨_, hg, hag, _⟩ := importVersionAssociations_stable p c a
    simp [P, hg, hag]
  unfold buildImportedAppAssociations
  dsimp only
  obtain ⟨_, _, _, _, _, hgp, hagp, _⟩ := setEditingVersionAsLatestVersion_frame
    ((p.appVersions.foldl (importVersionAssociations p)
      (p.appVersions.foldl (importAppVersion app p)
        { store := st, dataSourceMapping := [], dataSourceOptionsMapping := [],
          dataQueryMapping := [], appVersionMapping := [],
          appEnvironmentMapping := [], appDefaultEnvironmentMapping := [] })).store)
    ((p.appVersions.foldl (importVersionAssociations p)
      (p.appVersions.foldl (importAppVersion app p)
        { store := st, dataSourceMapping := [], dataSourceOptionsMapping := [],
          dataQueryMapping := [], appVersionMapping := [],
          appEnvironmentMapping := [], appDefaultEnvironmentMapping := [] })).appVersionMapping)
    p.appVersions
  rw [hgp, hagp]
  have e2 := h2 p.appVersions
    (p.appVersions.foldl (importAppVersion app p)
      { store := st, dataSourceMapping := [], dataSourceOptionsMapping := [],
        dataQueryMapping := [], appVersionMapping := [],
        appEnvironmentMapping := [], appDefaultEnvironmentMapping := [] })
  have e1 := h1 p.appVersions
    { store := st, dataSourceMapping := [], dataSourceOptionsMapping := [],
      dataQueryMapping := [], appVersionMapping := [],
      appEnvironmentMapping := [], appDefaultEnvironmentMapping := [] }
  have : P (p.appVersions.foldl (importVersionAssociations p)
      (p.appVersions.foldl (importAppVersion app p)
        { store := st, dataSourceMapping := [], dataSourceOptionsMapping := [],
          dataQueryMapping := [], appVersionMapping := [],
          appEnvironmentMapping := [], appDefaultEnvironmentMapping := [] }))
      = (st.groupPermissions, st.appGroupPermissions) := e2.trans e1
  exact ⟨congrArg Prod.fst this, congrArg Prod.snd this⟩

/-- C7.  With at least one administrative group-permission record in the
importing organization, the whole import persists exactly one
application-level grant for the new application: it belongs to the *first*
admin record (the loop body ends in `return`), carries
`{read, update, delete} = true`, and links that group to the new
application — even when further admin groups exist. -/
theorem c7_single_admin_grant (st : Store) (u : UserCtx) (p : AppParams)
    (g : GroupPermissionRow) (gs : List GroupPermissionRow)
    (hfil : st.groupPermissions.filter
        (fun r => r.organizationId == u.organizationId && r.group == "admin") = g :: gs)
    (hfresh : st.appGroupPermissions.all (fun r => r.appId != st.nextId) = true) :
    (importForUser st u p).2 = st.nextId
    ∧ (importForUser st u p).1.appGroupPermissions.length
      = st.appGroupPermissions.length + 1
    ∧ (importForUser st u p).1.appGroupPermissions.take st.appGroupPermissions.length
      = st.appGroupPermissions
    ∧ ((importForUser st u p).1.appGroupPermissions.drop st.appGroupPermissions.length).all
        (fun r => r.groupPermissionId == g.id && r.appId == st.nextId
          && r.read && r.update && r.delete) = true
    ∧ ((importForUser st u p).1.appGroupPermissions.filter
        (fun r => r.appId == st.nextId)).length = 1 := by
  unfold importForUser createImportedAppForUser
  dsimp only [Store.fresh]
  refine ⟨rfl, ?_⟩
  have hgp := buildImportedAppAssociations_gp
    { st with nextId := st.nextId + 1,
              apps := st.apps ++ [{ id := st.nextId, name := p.name, organizationId := u.organizationId, userId := u.id, slug := none, isPublic := false, currentVersionId := none }] }
    { id := st.nextId, name := p.name, organizationId := u.organizationId, userId := u.id, slug := none, isPublic := false, currentVersionId := none }
    p
  set st1 := buildImportedAppAssociations
    { st with nextId := st.nextId + 1,
              apps := st.apps ++ [{ id := st.nextId, name := p.name, organizationId := u.organizationId, userId := u.id, slug := none, isPublic := false, currentVersionId := none }] }
    { id := st.nextId, name := p.name, organizationId := u.organizationId, userId := u.id, slug := none, isPublic := false, currentVersionId := none }
    p with hst1
  have hadm : createAdminGroupPermissions st1
      { id := st.nextId, name := p.name, organizationId := u.organizationId, userId := u.id, slug := none, isPublic := false, currentVersionId := none }
      = { (st1.fresh).2 with appGroupPermissions := st1.appGroupPermissions
            ++ [{ id := st1.nextId, groupPermissionId := g.id, appId := st.nextId, read := true, update := true, delete := true }] } := by
    unfold createAdminGroupPermissions
    have : st1.groupPermissions.filter
        (fun r => r.organizationId == u.organizationId && r.group == "admin") = g :: gs := by
      rw [hgp.1]
      exact hfil
    rw [this]
    rfl
  rw [hadm]
  have hrow : (st1.fresh).2.appGroupPermissions = st1.appGroupPermissions := rfl
  have hagp : st1.appGroupPermissions = st.appGroupPermissions := hgp.2
  refine ⟨?_, ?_, ?_, ?_⟩
  · simp [hagp]
  · simp [hagp, List.take_left]
  · rw [show ({ (st1.fresh).2 with appGroupPermissions := st1.appGroupPermissions
        ++ [{ id := st1.nextId, groupPermissionId := g.id, appId := st.nextId, read := true, update := true, delete := true }] } : Store).appGroupPermissions
      = st.appGroupPermissions ++ [{ id := st1.nextId, groupPermissionId := g.id, appId := st.nextId, read := true, update := true, delete := true }] from by rw [← hagp]]
    rw [List.drop_left]
    simp
  · rw [show ({ (st1.fresh).2 with appGroupPermissions := st1.appGroupPermissions
        ++ [{ id := st1.nextId, groupPermissionId := g.id, appId := st.nextId, read := true, update := true, delete := true }] } : Store).appGroupPermissions
      = st.appGroupPermissions ++ [{ id := st1.nextId, groupPermissionId := g.id, appId := st.nextId, read := true, update := true, delete := true }] from by rw [← hagp]]
    rw [List.filter_append]
    have hnil : st.appGroupPermissions.filter (fun r => r.appId == st.nextId) = [] := by
      apply List.filter_eq_nil_iff.mpr
      intro r hr
      have := List.all_eq_true.mp hfresh r hr
      simpa using this
    rw [hnil]
    simp

/-- Witness for C7 on `adminStore` (two admin groups, ids 8 and 12): the
one grant created belongs to group 8. -/
theorem c7_single_admin_grant_witness :
    adminStore.groupPermissions.filter
        (fun r => r.organizationId == user0.organizationId && r.group == "admin")
      = ({ id := 8, organizationId := 2, group := "admin" } : GroupPermissionRow)
        :: [{ id := 12, organizationId := 2, group := "admin" }]
    ∧ adminStore.appGroupPermissions.all (fun r => r.appId != adminStore.nextId) = true
    ∧ ((importForUser adminStore user0 emptyVersionParams).2 = adminStore.nextId
      ∧ (importForUser adminStore user0 emptyVersionParams).1.appGroupPermissions.length
        = adminStore.appGroupPermissions.length + 1
      ∧ (importForUser adminStore user0 emptyVersionParams).1.appGroupPermissions.take
          adminStore.appGroupPermissions.length = adminStore.appGroupPermissions
      ∧ ((importForUser adminStore user0 emptyVersionParams).1.appGroupPermissions.drop
          adminStore.appGroupPermissions.length).all
          (fun r => r.groupPermissionId == (8 : Nat) && r.appId == adminStore.nextId
            && r.read && r.update && r.delete) = true
      ∧ ((importForUser adminStore user0 emptyVersionParams).1.appGroupPermissions.filter
          (fun r => r.appId == adminStore.nextId)).length = 1) :=
  ⟨by decide, by decide,
    c7_single_admin_grant adminStore user0 emptyVersionParams
      { id := 8, organizationId := 2, group := "admin" }
      [{ id := 12, organizationId := 2, group := "admin" }]
      (by decide) (by decide)⟩

/-! ### Mapping-object lemmas -/

theorem idLookup_nil (c : Nat) : idLookup [] c = none := rfl

theorem idLookup_set_self (m : List (Nat × Nat)) (k v : Nat) :
    idLookup (idSet m k v) k = some v := by
  simp [idLookup, idSet]

theorem idLookup_set_ne (m : List (Nat × Nat)) (k v c : Nat) (h : c ≠ k) :
    idLookup (idSet m k v) c = idLookup m c := by
  have hb : (k == c) = false := by
    simp [Ne.symm h]
  simp [idLookup, idSet, List.find?_cons, hb]

theorem idLookup_set_isSome (m : List (Nat × Nat)) (k v c : Nat) :
    (idLookup (idSet m k v) c).isSome = ((c == k) || (idLookup m c).isSome) := by
  by_cases h : c = k
  · subst h; simp [idLookup_set_self]
  · rw [idLookup_set_ne m k v c h]
    simp [h]

/-! ### Phase-1 (version creation loop) invariants -/

/-- Through the version-creation loop, the applications table keeps the
shape "pre-existing rows, then the shell app", the shell's
`currentVersionId` always being the mapping's answer for the declared
current version id. -/
theorem phase1_apps_shape (app : AppRow) (p : AppParams) (base : List AppRow)
    (hbase : ∀ a ∈ base, a.id ≠ app.id) :
    ∀ (l : List InAppVersion) (s : ImportCtx),
      s.store.apps
        = base ++ [{ app with currentVersionId := idLookupOpt s.appVersionMapping p.currentVersionId }] →
      (l.foldl (importAppVersion app p) s).store.apps
        = base ++ [{ app with currentVersionId := idLookupOpt (l.foldl (importAppVersion app p) s).appVersionMapping p.currentVersionId }] := by
  intro l
  induction l with
  | nil => intro s h; exact h
  | cons x xs ih =>
    intro s h
    refine ih (importAppVersion app p s x) ?_
    unfold importAppVersion
    dsimp only
    by_cases hc : p.currentVersionId = some x.id
    · rw [if_pos hc]
      split <;>
      · dsimp only [Store.fresh, Store.tick]
        rw [h, List.map_append]
        rw [map_id_of_all base _ (fun a ha => by
          rw [if_neg]
          exact hbase a ha)]
        simp only [List.map_cons, List.map_nil]
        rw [hc]
        simp [idLookupOpt, idLookup_set_self]
    · rw [if_neg hc]
      split <;>
      · dsimp only [Store.fresh, Store.tick]
        rw [h]
        congr 2
        cases hcv : p.currentVersionId with
        | none => simp [idLookupOpt]
        | some c =>
          have hne : c ≠ x.id := by
            intro hh
            exact hc (by rw [hcv, hh])
          simp [idLookupOpt, idLookup_set_ne _ _ _ _ hne]

/-- After the version-creation loop, the mapping answers exactly the input
version ids (on top of whatever it answered before). -/
theorem phase1_mapping_isSome (app : AppRow) (p : AppParams) :
    ∀ (l : List InAppVersion) (s : ImportCtx) (c : Nat),
      (idLookup (l.foldl (importAppVersion app p) s).appVersionMapping c).isSome
        = ((l.map (fun x => x.id)).contains c || (idLookup s.appVersionMapping c).isSome) := by
  intro l
  induction l with
  | nil => intro s c; simp
  | cons x xs ih =>
    intro s c
    rw [List.foldl_cons, ih]
    have hm : (importAppVersion app p s x).appVersionMapping
        = idSet s.appVersionMapping x.id ((s.store.fresh).1) := by
      unfold importAppVersion
      dsimp only
    rw [hm, idLookup_set_isSome]
    simp [List.contains_cons]
    by_cases h : c = x.id <;> simp [h, Bool.or_comm, Bool.or_assoc, Bool.or_left_comm]

/-- Every value the version mapping acquires during the version-creation
loop is the id of a version row of the new application. -/
theorem phase1_mapping_values (app : AppRow) (p : AppParams) :
    ∀ (l : List InAppVersion) (s : ImportCtx),
      (∀ kv ∈ s.appVersionMapping,
        ∃ w ∈ s.store.appVersions, w.id = kv.2 ∧ w.appId = app.id) →
      ∀ kv ∈ (l.foldl (importAppVersion app p) s).appVersionMapping,
        ∃ w ∈ (l.foldl (importAppVersion app p) s).store.appVersions,
          w.id = kv.2 ∧ w.appId = app.id := by
  intro l
  induction l with
  | nil => intro s h; exact h
  | cons x xs ih =>
    intro s h
    refine ih (importAppVersion app p s x) ?_
    intro kv hkv
    unfold importAppVersion at hkv ⊢
    dsimp only at hkv ⊢
    rw [idSet] at hkv
    rcases List.mem_cons.mp hkv with heq | hmem
    · subst heq
      refine ⟨{ id := (s.store.fresh).1, appId := app.id, name := x.name,
                definition := x.definition, updatedAt := ((s.store.fresh).2.tick).1 }, ?_, rfl, rfl⟩
      split <;> split <;> simp [Store.fresh, Store.tick]
    · obtain ⟨w, hw, hwid, hwapp⟩ := h kv hmem
      refine ⟨w, ?_, hwid, hwapp⟩
      split <;> split <;> simp [Store.fresh, Store.tick] <;> exact Or.inl hw

/-- The definition rewrite keeps every version row's id and app id. -/
theorem updateVersionDefinition_versions_proj (s : ImportCtx) (x : InAppVersion) :
    (updateVersionDefinition s x).store.appVersions.map (fun w => (w.id, w.appId))
      = s.store.appVersions.map (fun w => (w.id, w.appId)) := by
  rcases hl : idLookup s.appVersionMapping x.id with _ | vid <;>
    (unfold updateVersionDefinition; rw [hl])
  dsimp only
  rw [List.map_map]
  apply List.map_congr_left
  intro a _
  by_cases h : a.id = vid <;> simp [h]

/-- The per-version association pass keeps every version row's id and
app id. -/
theorem importVersionAssociations_versions_proj (p : AppParams) (s : ImportCtx)
    (x : InAppVersion) :
    (importVersionAssociations p s x).store.appVersions.map (fun w => (w.id, w.appId))
      = s.store.appVersions.map (fun w => (w.id, w.appId)) := by
  let P : ImportCtx → List (Nat × Nat) :=
    fun c => c.store.appVersions.map (fun w => (w.id, w.appId))
  have henv : ∀ (l : List InAppEnvironment) (c : ImportCtx),
      P (l.foldl importAppEnvironment c) = P c :=
    foldl_proj_eq _ P (fun c a => by
      obtain ⟨_, h2, _⟩ := importAppEnvironment_frame c a
      simp [P, h2])
  have hsrc : ∀ (l : List InDataSource) (c : ImportCtx),
      P (l.foldl (importDataSource x) c) = P c :=
    foldl_proj_eq _ P (fun c a => by
      obtain ⟨_, h2, _⟩ := importDataSource_frame x c a
      simp [P, h2])
  have hmat : ∀ (l : List InDataSource) (c : ImportCtx),
      P (l.foldl (materializeLegacyOption x) c) = P c :=
    foldl_proj_eq _ P (fun c a => by
      obtain ⟨_, h2, _⟩ := materializeLegacyOption_frame x c a
      simp [P, h2])
  have hdso : ∀ (l : List InDataSourceOption) (c : ImportCtx),
      P (l.foldl importDataSourceOption c) = P c :=
    foldl_proj_eq _ P (fun c a => by
      obtain ⟨_, h2, _⟩ := importDataSourceOption_frame c a
      simp [P, h2])
  have hq : ∀ (l : List InDataQuery) (acc : ImportCtx × List Nat),
      P (l.foldl importDataQuery acc).1 = P acc.1 :=
    foldl_proj_eq _ (fun (acc : ImportCtx × List Nat) => P acc.1) (fun acc a => by
      obtain ⟨_, h2, _⟩ := importDataQuery_frame acc a
      simp [P, h2])
  have hrm : ∀ (l : List Nat) (c : ImportCtx),
      P (l.foldl remapNewDataQuery c) = P c :=
    foldl_proj_eq _ P (fun c a => by
      obtain ⟨_, h2, _⟩ := remapNewDataQuery_frame c a
      simp [P, h2])
  have hupd : ∀ (c : ImportCtx), P (updateVersionDefinition c x) = P c :=
    fun c => updateVersionDefinition_versions_proj c x
  show P _ = P s
  unfold importVersionAssociations
  dsimp only
  rw [hupd, hrm, hq]
  by_cases hlen : p.dataSourceOptions.length = 0
  · rw [if_pos hlen, hdso, hmat, hsrc, henv]
  · rw [if_neg hlen, hdso, hsrc, henv]

/-- C8, amended.  The application's current-version pointer ends up as the
version mapping's answer for the input's declared current version id: when
some input version's original id equals the declared id, the pointer is
that version's newly created id (an id of a version row of the new
application); when no input version matches — in particular when the
version list is empty or no current version id is declared — the pointer
remains unset, and the application then has *no* current version (the
"exactly one current version" part of the claim fails in that case). -/
theorem c8_current_version_pointer (st : Store) (u : UserCtx) (p : AppParams)
    (hfresh : st.apps.all (fun a => a.id != st.nextId) = true) :
    let shell : AppRow :=
      { id := st.nextId, name := p.name, organizationId := u.organizationId,
        userId := u.id, slug := none, isPublic := false, currentVersionId := none }
    let s0 : ImportCtx :=
      { store := { st with nextId := st.nextId + 1, apps := st.apps ++ [shell] },
        dataSourceMapping := [], dataSourceOptionsMapping := [], dataQueryMapping := [],
        appVersionMapping := [], appEnvironmentMapping := [],
        appDefaultEnvironmentMapping := [] }
    let s1 := p.appVersions.foldl (importAppVersion shell p) s0
    let cv := idLookupOpt s1.appVersionMapping p.currentVersionId
    (importForUser st u p).1.apps
      = st.apps ++ [{ shell with slug := some st.nextId, currentVersionId := cv }]
    ∧ cv.isSome
      = (match p.currentVersionId with
         | some c => (p.appVersions.map (fun x => x.id)).contains c
         | none => false)
    ∧ cv.all (fun c =>
        ((importForUser st u p).1.appVersions.filter
          (fun w => w.appId == st.nextId)).any (fun w => w.id == c)) = true := by
  intro shell s0 s1 cv
  have hbase : ∀ a ∈ st.apps, a.id ≠ shell.id := by
    intro a ha
    have := List.all_eq_true.mp hfresh a ha
    simpa using this
  have hinit : s0.store.apps
      = st.apps ++ [{ shell with currentVersionId := idLookupOpt s0.appVersionMapping p.currentVersionId }] := by
    cases p.currentVersionId <;> rfl
  have hshape := phase1_apps_shape shell p st.apps hbase p.appVersions s0 hinit
  have hstable : ∀ (l : List InAppVersion) (c : ImportCtx),
      ((l.foldl (importVersionAssociations p) c).store.apps,
       (l.foldl (importVersionAssociations p) c).appVersionMapping)
        = (c.store.apps, c.appVersionMapping) :=
    foldl_proj_eq _ (fun (c : ImportCtx) => (c.store.apps, c.appVersionMapping)) (fun c a => by
      obtain ⟨h1, _, _, h4, _⟩ := importVersionAssociations_stable p c a
      simp [h1, h4])
  have hvproj : ∀ (l : List InAppVersion) (c : ImportCtx),
      (l.foldl (importVersionAssociations p) c).store.appVersions.map (fun w => (w.id, w.appId))
        = c.store.appVersions.map (fun w => (w.id, w.appId)) :=
    foldl_proj_eq _ (fun (c : ImportCtx) => c.store.appVersions.map (fun w => (w.id, w.appId)))
      (fun c a => importVersionAssociations_versions_proj p c a)
  -- the store after `buildImportedAppAssociations`
  have hbapps : (buildImportedAppAssociations s0.store shell p).apps
      = st.apps ++ [{ shell with currentVersionId := cv }] := by
    unfold buildImportedAppAssociations
    obtain ⟨hse, _⟩ := setEditingVersionAsLatestVersion_frame
      ((p.appVersions.foldl (importVersionAssociations p) s1).store)
      ((p.appVersions.foldl (importVersionAssociations p) s1).appVersionMapping)
      p.appVersions
    rw [hse]
    have := congrArg Prod.fst (hstable p.appVersions s1)
    dsimp at this
    rw [this]
    exact hshape
  have hbmap : (p.appVersions.foldl (importVersionAssociations p) s1).appVersionMapping
      = s1.appVersionMapping := congrArg Prod.snd (hstable p.appVersions s1)
  have hbvers : (buildImportedAppAssociations s0.store shell p).appVersions.map
        (fun w => (w.id, w.appId))
      = s1.store.appVersions.map (fun w => (w.id, w.appId)) := by
    unfold buildImportedAppAssociations
    obtain ⟨_, _, _, _, _, _, _, _, h9⟩ := setEditingVersionAsLatestVersion_frame
      ((p.appVersions.foldl (importVersionAssociations p) s1).store)
      ((p.appVersions.foldl (importVersionAssociations p) s1).appVersionMapping)
      p.appVersions
    have h9' := congrArg (List.map (fun t : Nat × Nat × Option String × Option Definition => (t.1, t.2.1))) h9
    rw [List.map_map, List.map_map] at h9'
    have := hvproj p.appVersions s1
    exact h9'.trans this
  -- assemble `importForUser`
  have hadm := createAdminGroupPermissions_frame (buildImportedAppAssociations s0.store shell p) shell
  have happs : (importForUser st u p).1.apps
      = (st.apps ++ [{ shell with currentVersionId := cv }]).map
          (fun (a : AppRow) => if a.id = shell.id then { a with slug := some shell.id } else a) := by
    unfold importForUser createImportedAppForUser
    dsimp only [Store.fresh]
    rw [hadm.1, hbapps]
  refine ⟨?_, ?_, ?_⟩
  · rw [happs, List.map_append]
    rw [map_id_of_all st.apps _ (fun a ha => by
      rw [if_neg (hbase a ha)])]
    simp
  · show (idLookupOpt s1.appVersionMapping p.currentVersionId).isSome = _
    cases hcur : p.currentVersionId with
    | none => simp [idLookupOpt]
    | some c =>
      have hm := phase1_mapping_isSome shell p p.appVersions s0 c
      have hz : idLookup s0.appVersionMapping c = none := rfl
      rw [hz] at hm
      simp only [Option.isSome_none, Bool.or_false] at hm
      simpa [idLookupOpt] using hm
  · cases hc : cv with
    | none => simp
    | some c =>
      have hc' : idLookupOpt s1.appVersionMapping p.currentVersionId = some c := hc
      -- the pointed id is a version row of the new application
      have hval : ∃ w ∈ s1.store.appVersions, w.id = c ∧ w.appId = shell.id := by
        have hfind : ∃ kv ∈ s1.appVersionMapping, kv.2 = c := by
          cases hcur : p.currentVersionId with
          | none => rw [hcur] at hc'; simp [idLookupOpt] at hc'
          | some c0 =>
            rw [hcur] at hc'
            have hl : idLookup s1.appVersionMapping c0 = some c := by
              simpa [idLookupOpt] using hc'
            simp only [idLookup] at hl
            obtain ⟨kv, hkv1, hkv2⟩ := Option.map_eq_some'.mp hl
            exact ⟨kv, List.mem_of_find?_eq_some hkv1, hkv2⟩
        obtain ⟨kv, hkv, hkvc⟩ := hfind
        obtain ⟨w, hw, hwid, hwapp⟩ := phase1_mapping_values shell p p.appVersions s0
          (by intro kv hkv; simp [s0] at hkv) kv hkv
        exact ⟨w, hw, hwid.trans hkvc, hwapp⟩
      obtain ⟨w, hw, hwid, hwapp⟩ := hval
      have hpair : (c, shell.id) ∈ (importForUser st u p).1.appVersions.map
          (fun w => (w.id, w.appId)) := by
        have hfinalvers : (importForUser st u p).1.appVersions.map (fun w => (w.id, w.appId))
            = s1.store.appVersions.map (fun w => (w.id, w.appId)) := by
          unfold importForUser createImportedAppForUser
          dsimp only [Store.fresh]
          rw [hadm.2.1]
          exact hbvers
        rw [hfinalvers]
        exact List.mem_map.mpr ⟨w, hw, by rw [hwid, hwapp]⟩
      obtain ⟨w', hw', hw'pair⟩ := List.mem_map.mp hpair
      have hw'id : w'.id = c := congrArg Prod.fst hw'pair
      have hw'app : w'.appId = shell.id := congrArg Prod.snd hw'pair
      simp only [Option.all_some]
      apply List.any_eq_true.mpr
      refine ⟨w', List.mem_filter.mpr ⟨hw', by simp [hw'app]⟩, by simp [hw'id]⟩

/-- Witness for C8 on `store0` and `legacyImportParams` (declared current
version id 10 matches the single input version; the new version is 101 and
the pointer is set to it). -/
theorem c8_current_version_pointer_witness :
    store0.apps.all (fun a => a.id != store0.nextId) = true
    ∧ ((importForUser store0 user0 legacyImportParams).1.apps
        = store0.apps ++ [{ id := 100, name := some "app", organizationId := 2, userId := 1, slug := some 100, isPublic := false, currentVersionId := some 101 }]
      ∧ (Option.some 101).isSome
        = (match legacyImportParams.currentVersionId with
           | some c => (legacyImportParams.appVersions.map (fun x => x.id)).contains c
           | none => false)
      ∧ Option.all (fun c =>
          ((importForUser store0 user0 legacyImportParams).1.appVersions.filter
            (fun w => w.appId == 100)).any (fun w => w.id == c)) (Option.some 101) = true) :=
  ⟨by decide, c8_current_version_pointer store0 user0 legacyImportParams (by decide)⟩

/-- C8, counterexample to the claim as stated: when the declared current
version id (99) matches no input version, the imported application ends up
with *no* current version — not "exactly one". -/
theorem c8_counterexample :
    (importForUser store0 user0 noMatchParams).1.apps.length = 1
    ∧ (importForUser store0 user0 noMatchParams).1.apps.countP
        (fun a => a.currentVersionId.isSome) = 0 := by
  decide

/-- One version-creation step consumes at least one fresh id. -/
theorem importAppVersion_nextId (app : AppRow) (p : AppParams) (s : ImportCtx)
    (x : InAppVersion) :
    s.store.nextId + 1 ≤ (importAppVersion app p s x).store.nextId := by
  unfold importAppVersion
  dsimp only
  split <;> split <;> simp [Store.fresh, Store.tick]

/-- With no input environments, the version-creation loop appends, for each
input version, one version row and one default `production` environment
attached to it; the fresh version ids are pairwise distinct. -/
theorem phase1_envs_empty (app : AppRow) (p : AppParams)
    (he : p.appEnvironments = []) :
    ∀ (l : List InAppVersion) (s : ImportCtx),
      ∃ vs es,
        (l.foldl (importAppVersion app p) s).store.appVersions
          = s.store.appVersions ++ vs
        ∧ (l.foldl (importAppVersion app p) s).store.appEnvironments
          = s.store.appEnvironments ++ es
        ∧ es.map (fun e => e.appVersionId) = vs.map (fun w => some w.id)
        ∧ (∀ e ∈ es, e.name = some "production" ∧ e.isDefault = some true)
        ∧ vs.length = l.length
        ∧ (∀ w ∈ vs, w.appId = app.id ∧ s.store.nextId ≤ w.id)
        ∧ (vs.map (fun w => w.id)).Pairwise (· < ·) := by
  intro l
  induction l with
  | nil =>
    intro s
    exact ⟨[], [], by simp, by simp, rfl, by simp, by simp, by simp, by simp⟩
  | cons x xs ih =>
    intro s
    obtain ⟨vs', es', h1, h2, h3, h4, h5, h6, h7⟩ := ih (importAppVersion app p s x)
    have hstep : (importAppVersion app p s x).store.appVersions
          = s.store.appVersions
            ++ [{ id := s.store.nextId, appId := app.id, name := x.name,
                  definition := x.definition, updatedAt := s.store.clock }]
        ∧ (importAppVersion app p s x).store.appEnvironments
          = s.store.appEnvironments
            ++ [{ id := s.store.nextId + 1, appVersionId := some s.store.nextId,
                  name := some "production", isDefault := some true }]
        ∧ s.store.nextId + 1 ≤ (importAppVersion app p s x).store.nextId := by
      unfold importAppVersion
      dsimp only
      rw [he]
      simp only [List.length_nil, eq_self_iff_true, if_true]
      split <;> simp [Store.fresh, Store.tick]
    obtain ⟨hv, hev, hn⟩ := hstep
    refine ⟨{ id := s.store.nextId, appId := app.id, name := x.name,
              definition := x.definition, updatedAt := s.store.clock } :: vs',
            { id := s.store.nextId + 1, appVersionId := some s.store.nextId,
              name := some "production", isDefault := some true } :: es',
            ?_, ?_, ?_, ?_, ?_, ?_, ?_⟩
    · rw [List.foldl_cons, h1, hv, List.append_assoc]
      rfl
    · rw [List.foldl_cons, h2, hev, List.append_assoc]
      rfl
    · simp only [List.map_cons, h3]
    · intro e hemem
      rcases List.mem_cons.mp hemem with heq | hmem
      · subst heq; exact ⟨rfl, rfl⟩
      · exact h4 e hmem
    · simp [h5]
    · intro w hw
      rcases List.mem_cons.mp hw with heq | hmem
      · subst heq; exact ⟨rfl, Nat.le_refl _⟩
      · obtain ⟨ha, hb⟩ := h6 w hmem
        exact ⟨ha, Nat.le_trans (Nat.le_trans (Nat.le_succ _) hn) hb⟩
    · simp only [List.map_cons]
      refine List.Pairwise.cons ?_ h7
      intro i hi
      obtain ⟨w, hwmem, hwid⟩ := List.mem_map.mp hi
      obtain ⟨_, hb⟩ := h6 w hwmem
      have : s.store.nextId + 1 ≤ w.id := Nat.le_trans hn hb
      omega

/-- With no input environments, the per-version association pass leaves the
environments table untouched. -/
theorem importVersionAssociations_envs_nil (p : AppParams)
    (he : p.appEnvironments = []) (s : ImportCtx) (x : InAppVersion) :
    (importVersionAssociations p s x).store.appEnvironments
      = s.store.appEnvironments := by
  let P : ImportCtx → List AppEnvironmentRow := fun c => c.store.appEnvironments
  have hsrc : ∀ (l : List InDataSource) (c : ImportCtx),
      P (l.foldl (importDataSource x) c) = P c :=
    foldl_proj_eq _ P (fun c a => (importDataSource_frame x c a).2.2.1)
  have hmat : ∀ (l : List InDataSource) (c : ImportCtx),
      P (l.foldl (materializeLegacyOption x) c) = P c :=
    foldl_proj_eq _ P (fun c a => (materializeLegacyOption_frame x c a).2.2.1)
  have hdso : ∀ (l : List InDataSourceOption) (c : ImportCtx),
      P (l.foldl importDataSourceOption c) = P c :=
    foldl_proj_eq _ P (fun c a => (importDataSourceOption_frame c a).2.2.1)
  have hq : ∀ (l : List InDataQuery) (acc : ImportCtx × List Nat),
      P (l.foldl importDataQuery acc).1 = P acc.1 :=
    foldl_proj_eq _ (fun (acc : ImportCtx × List Nat) => P acc.1)
      (fun acc a => (importDataQuery_frame acc a).2.2.1)
  have hrm : ∀ (l : List Nat) (c : ImportCtx),
      P (l.foldl remapNewDataQuery c) = P c :=
    foldl_proj_eq _ P (fun c a => (remapNewDataQuery_frame c a).2.2.1)
  have hupd : ∀ (c : ImportCtx), P (updateVersionDefinition c x) = P c :=
    fun c => (updateVersionDefinition_frame c x).2.1
  show P _ = P s
  unfold importVersionAssociations
  dsimp only
  rw [he]
  simp only [List.foldl_nil]
  rw [hupd, hrm, hq]
  by_cases hlen : p.dataSourceOptions.length = 0
  · rw [if_pos hlen, hdso, hmat, hsrc]
  · rw [if_neg hlen, hdso, hsrc]

/-- C6.  When the input has no environment entries at all, the import
creates, besides the version rows (one per input version, all belonging to
the new application), exactly one environment per created version — named
`production`, marked default — and nothing else touches the environments
table. -/
theorem c6_production_default_env (st : Store) (u : UserCtx) (p : AppParams)
    (he : p.appEnvironments = []) :
    (importForUser st u p).1.appVersions.length
      = st.appVersions.length + p.appVersions.length
    ∧ (importForUser st u p).1.appEnvironments.take st.appEnvironments.length
      = st.appEnvironments
    ∧ (importForUser st u p).1.appEnvironments.length
      = st.appEnvironments.length + p.appVersions.length
    ∧ ((importForUser st u p).1.appVersions.drop st.appVersions.length).all (fun w =>
        ((((importForUser st u p).1.appEnvironments.drop st.appEnvironments.length).filter
            (fun e => e.appVersionId == some w.id)).length == 1)
        && (((importForUser st u p).1.appEnvironments.drop st.appEnvironments.length).filter
            (fun e => e.appVersionId == some w.id)).all
              (fun e => e.name == some "production" && e.isDefault == some true)
        && (w.appId == (importForUser st u p).2)) = true := by
  obtain ⟨vs, es, h1, h2, h3, h4, h5, h6, h7⟩ :=
    phase1_envs_empty
      { id := st.nextId, name := p.name, organizationId := u.organizationId, userId := u.id, slug := none, isPublic := false, currentVersionId := none }
      p he p.appVersions
      { store := { st with nextId := st.nextId + 1, apps := st.apps ++ [{ id := st.nextId, name := p.name, organizationId := u.organizationId, userId := u.id, slug := none, isPublic := false, currentVersionId := none }] },
        dataSourceMapping := [], dataSourceOptionsMapping := [], dataQueryMapping := [],
        appVersionMapping := [], appEnvironmentMapping := [],
        appDefaultEnvironmentMapping := [] }
  set shell : AppRow :=
    { id := st.nextId, name := p.name, organizationId := u.organizationId, userId := u.id, slug := none, isPublic := false, currentVersionId := none } with hshell
  set s0 : ImportCtx :=
    { store := { st with nextId := st.nextId + 1, apps := st.apps ++ [shell] },
      dataSourceMapping := [], dataSourceOptionsMapping := [], dataQueryMapping := [],
      appVersionMapping := [], appEnvironmentMapping := [],
      appDefaultEnvironmentMapping := [] } with hs0
  set s1 := p.appVersions.foldl (importAppVersion shell p) s0 with hs1
  -- environments stay untouched after phase 1
  have henvs2 : ∀ (l : List InAppVersion) (c : ImportCtx),
      (l.foldl (importVersionAssociations p) c).store.appEnvironments
        = c.store.appEnvironments :=
    foldl_proj_eq _ (fun (c : ImportCtx) => c.store.appEnvironments)
      (fun c a => importVersionAssociations_envs_nil p he c a)
  have hvs2 : ∀ (l : List InAppVersion) (c : ImportCtx),
      (l.foldl (importVersionAssociations p) c).store.appVersions.map (fun w => (w.id, w.appId))
        = c.store.appVersions.map (fun w => (w.id, w.appId)) :=
    foldl_proj_eq _ (fun (c : ImportCtx) => c.store.appVersions.map (fun w => (w.id, w.appId)))
      (fun c a => importVersionAssociations_versions_proj p c a)
  -- the store produced by buildImportedAppAssociations
  have hbenv : (buildImportedAppAssociations s0.store shell p).appEnvironments
      = st.appEnvironments ++ es := by
    unfold buildImportedAppAssociations
    obtain ⟨_, hse, _⟩ := setEditingVersionAsLatestVersion_frame
      ((p.appVersions.foldl (importVersionAssociations p) s1).store)
      ((p.appVersions.foldl (importVersionAssociations p) s1).appVersionMapping)
      p.appVersions
    rw [hse, henvs2]
    exact h2
  have hbvers : (buildImportedAppAssociations s0.store shell p).appVersions.map
        (fun w => (w.id, w.appId))
      = st.appVersions.map (fun w => (w.id, w.appId))
        ++ vs.map (fun w => (w.id, w.appId)) := by
    have hA : (buildImportedAppAssociations s0.store shell p).appVersions.map
          (fun w => (w.id, w.appId))
        = s1.store.appVersions.map (fun w => (w.id, w.appId)) := by
      unfold buildImportedAppAssociations
      obtain ⟨_, _, _, _, _, _, _, _, h9⟩ := setEditingVersionAsLatestVersion_frame
        ((p.appVersions.foldl (importVersionAssociations p) s1).store)
        ((p.appVersions.foldl (importVersionAssociations p) s1).appVersionMapping)
        p.appVersions
      have h9' := congrArg (List.map (fun t : Nat × Nat × Option String × Option Definition => (t.1, t.2.1))) h9
      rw [List.map_map, List.map_map] at h9'
      exact h9'.trans (hvs2 p.appVersions s1)
    rw [hA, h1, List.map_append]
  have hadm := createAdminGroupPermissions_frame (buildImportedAppAssociations s0.store shell p) shell
  -- bridge to importForUser by definitional unfolding
  have hproj2 : (importForUser st u p).2 = st.nextId := rfl
  have hprojenv : (importForUser st u p).1.appEnvironments
      = (createAdminGroupPermissions (buildImportedAppAssociations s0.store shell p) shell).appEnvironments := rfl
  have hprojver : (importForUser st u p).1.appVersions
      = (createAdminGroupPermissions (buildImportedAppAssociations s0.store shell p) shell).appVersions := rfl
  have henvF : (importForUser st u p).1.appEnvironments = st.appEnvironments ++ es := by
    rw [hprojenv, hadm.2.2.1, hbenv]
  have hversF : (importForUser st u p).1.appVersions.map (fun w => (w.id, w.appId))
      = st.appVersions.map (fun w => (w.id, w.appId)) ++ vs.map (fun w => (w.id, w.appId)) := by
    rw [hprojver, hadm.2.1, hbvers]
  have heslen : es.length = vs.length := by
    have := congrArg List.length h3
    simpa using this
  refine ⟨?_, ?_, ?_, ?_⟩
  · have := congrArg List.length hversF
    simpa [h5] using this
  · rw [henvF]
    exact List.take_left _ _
  · rw [henvF]
    simp [heslen, h5]
  · apply List.all_eq_true.mpr
    intro w hw
    -- identify w's (id, appId) with one of the phase-1 version rows
    have hdropmap : ((importForUser st u p).1.appVersions.drop st.appVersions.length).map
          (fun w => (w.id, w.appId)) = vs.map (fun w => (w.id, w.appId)) := by
      rw [List.map_drop, hversF]
      have hlen : st.appVersions.length
          = (st.appVersions.map (fun (w : AppVersionRow) => (w.id, w.appId))).length := by simp
      rw [hlen, List.drop_left]
    have hmem : (w.id, w.appId) ∈ vs.map (fun w => (w.id, w.appId)) := by
      rw [← hdropmap]
      exact List.mem_map.mpr ⟨w, hw, rfl⟩
    obtain ⟨w2, hw2, hw2eq⟩ := List.mem_map.mp hmem
    have hw2id : w2.id = w.id := congrArg Prod.fst hw2eq
    have hw2app : w2.appId = w.appId := congrArg Prod.snd hw2eq
    have hdropenv : (importForUser st u p).1.appEnvironments.drop st.appEnvironments.length
        = es := by
      rw [henvF, List.drop_left]
    rw [hdropenv]
    have hcount : (es.filter (fun e => e.appVersionId == some w.id)).length = 1 := by
      rw [← List.countP_eq_length_filter]
      have e1 : es.countP (fun e => e.appVersionId == some w.id)
          = (es.map (fun e => e.appVersionId)).countP (fun o => o == some w.id) := by
        rw [List.countP_map]
        rfl
      have e2 : (vs.map (fun v => some v.id)).countP (fun o => o == some w.id)
          = (vs.map (fun v => v.id)).countP (fun i => i == w.id) := by
        rw [List.countP_map, List.countP_map]
        simp only [Function.comp_def, Option.some_beq_some]
      have e3 : (vs.map (fun v => v.id)).countP (fun i => i == w.id)
          = (vs.map (fun v => v.id)).count w.id := rfl
      have hmemid : w.id ∈ vs.map (fun v => v.id) :=
        List.mem_map.mpr ⟨w2, hw2, hw2id⟩
      have hnodup : (vs.map (fun v => v.id)).Nodup :=
        h7.imp (fun hab => Nat.ne_of_lt hab)
      rw [e1, h3, e2, e3]
      exact List.count_eq_one_of_mem hnodup hmemid
    have hprops : (es.filter (fun e => e.appVersionId == some w.id)).all
        (fun e => e.name == some "production" && e.isDefault == some true) = true := by
      apply List.all_eq_true.mpr
      intro e hef
      obtain ⟨hes, _⟩ := List.mem_filter.mp hef
      obtain ⟨hn, hd⟩ := h4 e hes
      simp [hn, hd]
    have happid : w.appId = st.nextId := by
      obtain ⟨ha, _⟩ := h6 w2 hw2
      rw [← hw2app, ha]
    simp [hcount, hprops, hproj2, happid]

/-- Witness for C6 on `store0` and `legacyImportParams` (one version, no
environment entries). -/
theorem c6_production_default_env_witness :
    legacyImportParams.appEnvironments = ([] : List InAppEnvironment)
    ∧ ((importForUser store0 user0 legacyImportParams).1.appVersions.length
        = store0.appVersions.length + legacyImportParams.appVersions.length
      ∧ (importForUser store0 user0 legacyImportParams).1.appEnvironments.take
          store0.appEnvironments.length = store0.appEnvironments
      ∧ (importForUser store0 user0 legacyImportParams).1.appEnvironments.length
        = store0.appEnvironments.length + legacyImportParams.appVersions.length
      ∧ ((importForUser store0 user0 legacyImportParams).1.appVersions.drop
            store0.appVersions.length).all (fun w =>
          ((((importForUser store0 user0 legacyImportParams).1.appEnvironments.drop
                store0.appEnvironments.length).filter
              (fun e => e.appVersionId == some w.id)).length == 1)
          && (((importForUser store0 user0 legacyImportParams).1.appEnvironments.drop
                store0.appEnvironments.length).filter
              (fun e => e.appVersionId == some w.id)).all
                (fun e => e.name == some "production" && e.isDefault == some true)
          && (w.appId == (importForUser store0 user0 legacyImportParams).2)) = true) :=
  ⟨rfl, c6_production_default_env store0 user0 legacyImportParams rfl⟩

/-! ### Lemmas for the round-trip claim -/

/-- The environment loop creates one row per input environment. -/
theorem envfold_length :
    ∀ (l : List InAppEnvironment) (s : ImportCtx),
      (l.foldl importAppEnvironment s).store.appEnvironments.length
        = s.store.appEnvironments.length + l.length := by
  intro l
  induction l with
  | nil => intro s; rfl
  | cons x xs ih =>
    intro s
    rw [List.foldl_cons, ih]
    have h1 : (importAppEnvironment s x).store.appEnvironments.length
        = s.store.appEnvironments.length + 1 := by
      unfold importAppEnvironment
      simp [Store.fresh]
    rw [h1]
    simp only [List.length_cons]
    omega

/-- When every source targets the processed version, the data source loop
skips nothing and creates one row per source. -/
theorem srcfold_length (iv : InAppVersion) :
    ∀ (l : List InDataSource) (s : ImportCtx),
      (∀ a ∈ l, a.appVersionId = some iv.id) →
      (l.foldl (importDataSource iv) s).store.dataSources.length
        = s.store.dataSources.length + l.length := by
  intro l
  induction l with
  | nil => intro s _; rfl
  | cons x xs ih =>
    intro s hall
    rw [List.foldl_cons, ih _ (fun a ha => hall a (by simp [ha]))]
    have hx := hall x (by simp)
    have h1 : (importDataSource iv s x).store.dataSources.length
        = s.store.dataSources.length + 1 := by
      unfold importDataSource
      dsimp only
      rw [hx]
      simp [Store.fresh]
    rw [h1]
    simp only [List.length_cons]
    omega

/-- The rewritten binding's `queryId` in closed form. -/
theorem remapEvent_queryId (m : List (Nat × Nat)) (e : Event) :
    (remapEvent m e).queryId
      = match e.queryId with
        | none => none
        | some q => idLookup m q := by
  rcases he : e.queryId with _ | q <;> simp [remapEvent, he]

/-- Every event binding of a rewritten event list is a `remapEvent` image:
it either has no `queryId` or carries a value of the mapping. -/
theorem mem_remapped_events (m : List (Nat × Nat)) (evs : List Event) :
    ∀ e ∈ evs.map (remapEvent m), e.queryId = none ∨ ∃ kv ∈ m, e.queryId = some kv.2 := by
  intro e he
  obtain ⟨e0, _, rfl⟩ := List.mem_map.mp he
  rcases he0 : e0.queryId with _ | q
  · left; simp [remapEvent_queryId, he0]
  · rcases hl : idLookup m q with _ | val
    · left; simp [remapEvent_queryId, he0, hl]
    · right
      have hl2 := hl
      simp only [idLookup] at hl2
      obtain ⟨kv, hkv1, hkv2⟩ := Option.map_eq_some'.mp hl2
      refine ⟨kv, List.mem_of_find?_eq_some hkv1, ?_⟩
      simp [remapEvent_queryId, he0, hl, hkv2]

/-- Every event binding emitted by the query-options rewrite either has no
`queryId` or carries a value of the mapping. -/
theorem events_of_replace_options (opts : Option QueryOptions) (m : List (Nat × Nat)) :
    ∀ e ∈ eventsOfQueryOptions (replaceDataQueryOptionsWithNewDataQueryIds opts m),
      e.queryId = none ∨ ∃ kv ∈ m, e.queryId = some kv.2 := by
  intro e he
  rcases opts with _ | o
  · simp [replaceDataQueryOptionsWithNewDataQueryIds, eventsOfQueryOptions] at he
  rcases ho : o.events with _ | evs
  · simp only [replaceDataQueryOptionsWithNewDataQueryIds, ho, eventsOfQueryOptions] at he
    simp at he
  · simp only [replaceDataQueryOptionsWithNewDataQueryIds, ho, eventsOfQueryOptions,
      Option.getD_some] at he
    exact mem_remapped_events m evs e he

/-- Every event binding collected from a rewritten definition either has no
`queryId` or carries a value of the mapping.  (Per-column events count as
bindings only for table-kind components, which are exactly the ones the
rewrite touches.) -/
theorem events_of_replace_definition (d : Option Definition) (m : List (Nat × Nat)) :
    ∀ e ∈ boundEventsOfDefinition (replaceDataQueryIdWithinDefinitions d m),
      e.queryId = none ∨ ∃ kv ∈ m, e.queryId = some kv.2 := by
  intro e he
  rcases d with _ | dd
  · simp [replaceDataQueryIdWithinDefinitions, boundEventsOfDefinition] at he
  rcases hc : dd.components with _ | comps
  · simp only [replaceDataQueryIdWithinDefinitions, hc, boundEventsOfDefinition] at he
    simp at he
  · simp only [replaceDataQueryIdWithinDefinitions, hc, boundEventsOfDefinition,
      Option.getD_some] at he
    obtain ⟨kc, hkcmem, hein⟩ := List.mem_flatMap.mp he
    obtain ⟨kc0, hkc0, rfl⟩ := List.mem_map.mp hkcmem
    rcases kc0 with ⟨k0, c0⟩
    dsimp only at hein
    rcases hd0 : c0.defn with _ | d0
    · unfold remapComponent at hein
      rw [hd0] at hein
      simp [boundEventsOfComponent, hd0] at hein
    · have hcomp := remapComponent_eq m c0.kind d0
      have hc0eq : remapComponent m c0 = remapComponent m { kind := c0.kind, defn := some d0 } := by
        rw [← hd0]
      rw [hc0eq, hcomp] at hein
      simp only [boundEventsOfComponent] at hein
      rcases List.mem_append.mp hein with hein1 | hein2
      rcases List.mem_append.mp hein1 with hein3 | hein4
      · rcases hev : d0.events with _ | evs
        · rw [hev] at hein3; simp at hein3
        · rw [hev] at hein3
          simp only [Option.map_some', Option.getD_some] at hein3
          exact mem_remapped_events m evs e hein3
      · obtain ⟨a0, ha0, hein5⟩ := List.mem_flatMap.mp hein4
        rcases hac : d0.actions with _ | acts
        · rw [hac] at ha0; simp at ha0
        · rw [hac] at ha0
          simp only [Option.map_some', Option.getD_some] at ha0
          obtain ⟨a1, _, rfl⟩ := List.mem_map.mp ha0
          rcases hae : a1.events with _ | aevs
          · simp [remapActionEntry, hae] at hein5
          · unfold remapActionEntry at hein5
            rw [hae] at hein5
            simp only [Option.getD_some] at hein5
            exact mem_remapped_events m aevs e hein5
      · by_cases hk : c0.kind = "Table"
        · rw [if_pos hk] at hein2
          obtain ⟨col, hcol, hein6⟩ := List.mem_flatMap.mp hein2
          rcases hcc : d0.columns with _ | cols
          · rw [hcc] at hcol; simp at hcol
          · rw [hcc, if_pos hk] at hcol
            simp only [Option.map_some', Option.getD_some] at hcol
            obtain ⟨c1, _, rfl⟩ := List.mem_map.mp hcol
            rcases hce : c1.events with _ | cevs
            · simp [remapColumnEntry, hce] at hein6
            · unfold remapColumnEntry at hein6
              rw [hce] at hein6
              simp only [Option.getD_some] at hein6
              exact mem_remapped_events m cevs e hein6
        · rw [if_neg hk] at hein2
          simp at hein2

/-- The query-creation loop in closed form: one new row per input query,
collected ids are the new rows' ids (fresh, increasing), and every binding
the query-id mapping acquires maps to one of the new rows. -/
theorem queryfold_spec :
    ∀ (qs : List InDataQuery) (s : ImportCtx) (ids0 : List Nat),
      ∃ rows : List DataQueryRow,
        (qs.foldl importDataQuery (s, ids0)).1.store.dataQueries
          = s.store.dataQueries ++ rows
        ∧ (qs.foldl importDataQuery (s, ids0)).2 = ids0 ++ rows.map (fun r => r.id)
        ∧ rows.length = qs.length
        ∧ (∀ r ∈ rows, s.store.nextId ≤ r.id)
        ∧ (rows.map (fun r => r.id)).Pairwise (· < ·)
        ∧ (∀ kv ∈ (qs.foldl importDataQuery (s, ids0)).1.dataQueryMapping,
            (∃ r ∈ rows, kv.2 = r.id) ∨ kv ∈ s.dataQueryMapping) := by
  intro qs
  induction qs with
  | nil =>
    intro s ids0
    exact ⟨[], by simp, by simp, rfl, by simp, by simp, fun kv hkv => Or.inr hkv⟩
  | cons q qs ih =>
    intro s ids0
    obtain ⟨rows', h1, h2, h3, h4, h5, h6⟩ := ih (importDataQuery (s, ids0) q).1 (ids0 ++ [s.store.nextId])
    have hstep : (importDataQuery (s, ids0) q).1.store.dataQueries
          = s.store.dataQueries
            ++ [{ id := s.store.nextId, name := q.name, kind := q.kind,
                  dataSourceId := idLookupOpt s.dataSourceMapping q.dataSourceId,
                  options := q.options }]
        ∧ (importDataQuery (s, ids0) q).1.store.nextId = s.store.nextId + 1
        ∧ (importDataQuery (s, ids0) q).1.dataQueryMapping
          = idSet s.dataQueryMapping q.id s.store.nextId
        ∧ (importDataQuery (s, ids0) q).2 = ids0 ++ [s.store.nextId] := by
      refine ⟨rfl, rfl, rfl, rfl⟩
    obtain ⟨hsq, hsn, hsm, hsi⟩ := hstep
    have hfold : (q :: qs).foldl importDataQuery (s, ids0)
        = qs.foldl importDataQuery ((importDataQuery (s, ids0) q).1, ids0 ++ [s.store.nextId]) := by
      rw [List.foldl_cons]
      congr 1
    refine ⟨{ id := s.store.nextId, name := q.name, kind := q.kind,
              dataSourceId := idLookupOpt s.dataSourceMapping q.dataSourceId,
              options := q.options } :: rows', ?_, ?_, ?_, ?_, ?_, ?_⟩
    · rw [hfold, h1, hsq, List.append_assoc]
      rfl
    · rw [hfold, h2]
      simp
    · simp [h3]
    · intro r hr
      rcases List.mem_cons.mp hr with heq | hmem
      · subst heq; exact Nat.le_refl _
      · have := h4 r hmem
        rw [hsn] at this
        omega
    · simp only [List.map_cons]
      refine List.Pairwise.cons ?_ h5
      intro i hi
      obtain ⟨r, hrmem, hrid⟩ := List.mem_map.mp hi
      have := h4 r hrmem
      rw [hsn] at this
      omega
    · intro kv hkv
      rw [hfold] at hkv
      rcases h6 kv hkv with ⟨r, hrmem, hrid⟩ | hold
      · exact Or.inl ⟨r, List.mem_cons_of_mem _ hrmem, hrid⟩
      · rw [hsm] at hold
        rcases List.mem_cons.mp hold with heq | hmem
        · subst heq
          exact Or.inl ⟨_, List.mem_cons_self _ _, rfl⟩
        · exact Or.inr hmem

/-- The remap loop over the freshly created query ids, in closed form:
each listed row gets its options rewritten once with the (unchanging)
query-id mapping; every other row is untouched. -/
theorem remapfold_spec :
    ∀ (ids : List Nat) (s : ImportCtx), ids.Nodup →
      (ids.foldl remapNewDataQuery s).store.dataQueries
        = s.store.dataQueries.map
            (fun q => if ids.contains q.id
              then { q with options := replaceDataQueryOptionsWithNewDataQueryIds q.options s.dataQueryMapping }
              else q) := by
  intro ids
  induction ids with
  | nil =>
    intro s _
    simp
  | cons i rest ih =>
    intro s hnd
    rw [List.foldl_cons, ih _ (List.Nodup.of_cons hnd)]
    have hm : (remapNewDataQuery s i).dataQueryMapping = s.dataQueryMapping := rfl
    have hq : (remapNewDataQuery s i).store.dataQueries
        = s.store.dataQueries.map
            (fun q => if q.id = i
              then { q with options := replaceDataQueryOptionsWithNewDataQueryIds q.options s.dataQueryMapping }
              else q) := rfl
    rw [hm, hq, List.map_map]
    apply List.map_congr_left
    intro q _
    have hni : ¬ i ∈ rest := (List.nodup_cons.mp hnd).1
    by_cases hqi : q.id = i
    · simp [Function.comp_def, hqi, List.contains_cons]
      intro h
      exact absurd h hni
    · by_cases hqr : rest.contains q.id = true
      · simp [Function.comp_def, hqi, hqr, List.contains_cons]
      · simp only [Bool.not_eq_true] at hqr
        simp [Function.comp_def, hqi, hqr, List.contains_cons]

theorem importAppEnvironment_nextId (s : ImportCtx) (x : InAppEnvironment) :
    s.store.nextId ≤ (importAppEnvironment s x).store.nextId := by
  unfold importAppEnvironment
  simp [Store.fresh]

theorem importDataSource_nextId (v : InAppVersion) (s : ImportCtx) (x : InDataSource) :
    s.store.nextId ≤ (importDataSource v s x).store.nextId := by
  unfold importDataSource
  dsimp only
  split <;> split <;> simp [Store.fresh]

theorem materializeLegacyOption_nextId (v : InAppVersion) (s : ImportCtx) (x : InDataSource) :
    s.store.nextId ≤ (materializeLegacyOption v s x).store.nextId := by
  unfold materializeLegacyOption
  simp [Store.fresh]

theorem importDataSourceOption_nextId (s : ImportCtx) (x : InDataSourceOption) :
    s.store.nextId ≤ (importDataSourceOption s x).store.nextId := by
  unfold importDataSourceOption
  simp [Store.fresh]

theorem contains_of_mem_nat {l : List Nat} {a : Nat} (h : a ∈ l) :
    l.contains a = true := by
  simp only [List.contains, List.elem_eq_mem, decide_eq_true_eq]
  exact h

theorem contains_eq_false_of_not_mem_nat {l : List Nat} {a : Nat} (h : ¬ a ∈ l) :
    l.contains a = false := by
  simp only [List.contains, List.elem_eq_mem, decide_eq_false_iff_not]
  exact h

/-- The full import of a single-version input with at least one
environment entry, where every data source targets that version: the
version row, environment count, data source count, the new query rows and
the remapped references, in closed form. -/
theorem importForUser_single_version (st : Store) (u : UserCtx) (p : AppParams)
    (iv : InAppVersion)
    (hpv : p.appVersions = [iv])
    (hE : ¬ p.appEnvironments.length = 0)
    (hsrc : ∀ a ∈ p.dataSources, a.appVersionId = some iv.id)
    (hwfv : ∀ w ∈ st.appVersions, w.id < st.nextId)
    (hwfq : ∀ q ∈ st.dataQueries, q.id < st.nextId) :
    ∃ (w : AppVersionRow) (qrows : List DataQueryRow),
      (importForUser st u p).1.appVersions = st.appVersions ++ [w]
      ∧ (importForUser st u p).1.appEnvironments.length
        = st.appEnvironments.length + p.appEnvironments.length
      ∧ (importForUser st u p).1.dataSources.length
        = st.dataSources.length + p.dataSources.length
      ∧ (importForUser st u p).1.dataQueries = st.dataQueries ++ qrows
      ∧ qrows.length = p.dataQueries.length
      ∧ (∀ r ∈ qrows, st.nextId ≤ r.id)
      ∧ (∀ r ∈ qrows, ∀ e ∈ eventsOfQueryOptions r.options,
          e.queryId = none ∨ ∃ i ∈ qrows.map (fun r => r.id), e.queryId = some i)
      ∧ (∀ e ∈ boundEventsOfDefinition w.definition,
          e.queryId = none ∨ ∃ i ∈ qrows.map (fun r => r.id), e.queryId = some i) := by
  set shell : AppRow :=
    { id := st.nextId, name := p.name, organizationId := u.organizationId, userId := u.id, slug := none, isPublic := false, currentVersionId := none } with hshell
  set s0 : ImportCtx :=
    { store := { st with nextId := st.nextId + 1, apps := st.apps ++ [shell] },
      dataSourceMapping := [], dataSourceOptionsMapping := [], dataQueryMapping := [],
      appVersionMapping := [], appEnvironmentMapping := [],
      appDefaultEnvironmentMapping := [] } with hs0
  set s1 := importAppVersion shell p s0 iv with hs1
  -- effect of the single phase-1 step
  have h1v : s1.store.appVersions
      = st.appVersions ++ [{ id := st.nextId + 1, appId := st.nextId, name := iv.name, definition := iv.definition, updatedAt := st.clock }] := by
    rw [hs1]
    unfold importAppVersion
    dsimp only [Store.fresh, Store.tick]
    rw [if_neg hE]
    split <;> rfl
  have h1e : s1.store.appEnvironments = st.appEnvironments := by
    rw [hs1]
    unfold importAppVersion
    dsimp only [Store.fresh, Store.tick]
    rw [if_neg hE]
    split <;> rfl
  have h1n : s1.store.nextId = st.nextId + 2 := by
    rw [hs1]
    unfold importAppVersion
    dsimp only [Store.fresh, Store.tick]
    rw [if_neg hE]
    split <;> rfl
  have h1m : s1.appVersionMapping = [(iv.id, st.nextId + 1)] := by
    rw [hs1]
    unfold importAppVersion
    dsimp only [Store.fresh, Store.tick]
    rfl
  have h1fr := importAppVersion_frame shell p s0 iv
  have h1s : s1.store.dataSources = st.dataSources := h1fr.1
  have h1q : s1.store.dataQueries = st.dataQueries := h1fr.2.2.1
  have h1dqm : s1.dataQueryMapping = [] := h1fr.2.2.2.2.2.2.2.1
  -- phase-2 intermediate states
  set sA := p.appEnvironments.foldl importAppEnvironment s1 with hsA
  set sB := p.dataSources.foldl (importDataSource iv) sA with hsB
  set sC := (if p.dataSourceOptions.length = 0
      then p.dataSources.foldl (materializeLegacyOption iv) sB else sB) with hsC
  set sD := p.dataSourceOptions.foldl importDataSourceOption sC with hsD
  set acc := p.dataQueries.foldl importDataQuery (sD, []) with hacc
  set sE := acc.2.foldl remapNewDataQuery acc.1 with hsE
  -- environment fold
  have hAe : sA.store.appEnvironments.length
      = st.appEnvironments.length + p.appEnvironments.length := by
    rw [hsA, envfold_length, h1e]
  have hAv : sA.store.appVersions = s1.store.appVersions :=
    foldl_proj_eq _ (fun (c : ImportCtx) => c.store.appVersions)
      (fun c a => (importAppEnvironment_frame c a).2.1) p.appEnvironments s1
  have hAs : sA.store.dataSources = s1.store.dataSources :=
    foldl_proj_eq _ (fun (c : ImportCtx) => c.store.dataSources)
      (fun c a => (importAppEnvironment_frame c a).2.2.1) p.appEnvironments s1
  have hAq : sA.store.dataQueries = s1.store.dataQueries :=
    foldl_proj_eq _ (fun (c : ImportCtx) => c.store.dataQueries)
      (fun c a => (importAppEnvironment_frame c a).2.2.2.2.1) p.appEnvironments s1
  have hAdqm : sA.dataQueryMapping = s1.dataQueryMapping :=
    foldl_proj_eq _ (fun (c : ImportCtx) => c.dataQueryMapping)
      (fun c a => (importAppEnvironment_frame c a).2.2.2.2.2.2.2.2.2.1) p.appEnvironments s1
  have hAm : sA.appVersionMapping = s1.appVersionMapping :=
    foldl_proj_eq _ (fun (c : ImportCtx) => c.appVersionMapping)
      (fun c a => (importAppEnvironment_frame c a).2.2.2.2.2.2.2.2.2.2.1) p.appEnvironments s1
  have hAn : s1.store.nextId ≤ sA.store.nextId :=
    foldl_mono_nat _ (fun (c : ImportCtx) => c.store.nextId)
      (fun c a => importAppEnvironment_nextId c a) p.appEnvironments s1
  -- data source fold
  have hBsrc : sB.store.dataSources.length
      = st.dataSources.length + p.dataSources.length := by
    rw [hsB, srcfold_length iv p.dataSources sA hsrc, hAs, h1s]
  have hBv : sB.store.appVersions = sA.store.appVersions :=
    foldl_proj_eq _ (fun (c : ImportCtx) => c.store.appVersions)
      (fun c a => (importDataSource_frame iv c a).2.1) p.dataSources sA
  have hBe : sB.store.appEnvironments = sA.store.appEnvironments :=
    foldl_proj_eq _ (fun (c : ImportCtx) => c.store.appEnvironments)
      (fun c a => (importDataSource_frame iv c a).2.2.1) p.dataSources sA
  have hBq : sB.store.dataQueries = sA.store.dataQueries :=
    foldl_proj_eq _ (fun (c : ImportCtx) => c.store.dataQueries)
      (fun c a => (importDataSource_frame iv c a).2.2.2.2.1) p.dataSources sA
  have hBdqm : sB.dataQueryMapping = sA.dataQueryMapping :=
    foldl_proj_eq _ (fun (c : ImportCtx) => c.dataQueryMapping)
      (fun c a => (importDataSource_frame iv c a).2.2.2.2.2.2.2.1) p.dataSources sA
  have hBm : sB.appVersionMapping = sA.appVersionMapping :=
    foldl_proj_eq _ (fun (c : ImportCtx) => c.appVersionMapping)
      (fun c a => (importDataSource_frame iv c a).2.2.2.2.2.2.2.2.1) p.dataSources sA
  have hBn : sA.store.nextId ≤ sB.store.nextId :=
    foldl_mono_nat _ (fun (c : ImportCtx) => c.store.nextId)
      (fun c a => importDataSource_nextId iv c a) p.dataSources sA
  -- legacy materialization (conditional) and standalone options folds
  have hCv : sC.store.appVersions = sB.store.appVersions
      ∧ sC.store.appEnvironments = sB.store.appEnvironments
      ∧ sC.store.dataSources = sB.store.dataSources
      ∧ sC.store.dataQueries = sB.store.dataQueries
      ∧ sC.dataQueryMapping = sB.dataQueryMapping
      ∧ sC.appVersionMapping = sB.appVersionMapping
      ∧ sB.store.nextId ≤ sC.store.nextId := by
    rw [hsC]
    by_cases hlen : p.dataSourceOptions.length = 0
    · rw [if_pos hlen]
      refine ⟨?_, ?_, ?_, ?_, ?_, ?_, ?_⟩
      · exact foldl_proj_eq _ (fun (c : ImportCtx) => c.store.appVersions)
          (fun c a => (materializeLegacyOption_frame iv c a).2.1) p.dataSources sB
      · exact foldl_proj_eq _ (fun (c : ImportCtx) => c.store.appEnvironments)
          (fun c a => (materializeLegacyOption_frame iv c a).2.2.1) p.dataSources sB
      · exact foldl_proj_eq _ (fun (c : ImportCtx) => c.store.dataSources)
          (fun c a => (materializeLegacyOption_frame iv c a).2.2.2.1) p.dataSources sB
      · exact foldl_proj_eq _ (fun (c : ImportCtx) => c.store.dataQueries)
          (fun c a => (materializeLegacyOption_frame iv c a).2.2.2.2.1) p.dataSources sB
      · exact foldl_proj_eq _ (fun (c : ImportCtx) => c.dataQueryMapping)
          (fun c a => (materializeLegacyOption_frame iv c a).2.2.2.2.2.2.2.2.2.1) p.dataSources sB
      · exact foldl_proj_eq _ (fun (c : ImportCtx) => c.appVersionMapping)
          (fun c a => (materializeLegacyOption_frame iv c a).2.2.2.2.2.2.2.2.2.2.1) p.dataSources sB
      · exact foldl_mono_nat _ (fun (c : ImportCtx) => c.store.nextId)
          (fun c a => materializeLegacyOption_nextId iv c a) p.dataSources sB
    · rw [if_neg hlen]
      exact ⟨rfl, rfl, rfl, rfl, rfl, rfl, Nat.le_refl _⟩
  have hDv : sD.store.appVersions = sC.store.appVersions :=
    foldl_proj_eq _ (fun (c : ImportCtx) => c.store.appVersions)
      (fun c a => (importDataSourceOption_frame c a).2.1) p.dataSourceOptions sC
  have hDe : sD.store.appEnvironments = sC.store.appEnvironments :=
    foldl_proj_eq _ (fun (c : ImportCtx) => c.store.appEnvironments)
      (fun c a => (importDataSourceOption_frame c a).2.2.1) p.dataSourceOptions sC
  have hDs : sD.store.dataSources = sC.store.dataSources :=
    foldl_proj_eq _ (fun (c : ImportCtx) => c.store.dataSources)
      (fun c a => (importDataSourceOption_frame c a).2.2.2.1) p.dataSourceOptions sC
  have hDq : sD.store.dataQueries = sC.store.dataQueries :=
    foldl_proj_eq _ (fun (c : ImportCtx) => c.store.dataQueries)
      (fun c a => (importDataSourceOption_frame c a).2.2.2.2.1) p.dataSourceOptions sC
  have hDdqm : sD.dataQueryMapping = sC.dataQueryMapping :=
    foldl_proj_eq _ (fun (c : ImportCtx) => c.dataQueryMapping)
      (fun c a => (importDataSourceOption_frame c a).2.2.2.2.2.2.2.2.2.1) p.dataSourceOptions sC
  have hDm : sD.appVersionMapping = sC.appVersionMapping :=
    foldl_proj_eq _ (fun (c : ImportCtx) => c.appVersionMapping)
      (fun c a => (importDataSourceOption_frame c a).2.2.2.2.2.2.2.2.2.2.1) p.dataSourceOptions sC
  have hDn : sC.store.nextId ≤ sD.store.nextId :=
    foldl_mono_nat _ (fun (c : ImportCtx) => c.store.nextId)
      (fun c a => importDataSourceOption_nextId c a) p.dataSourceOptions sC
  have hDqst : sD.store.dataQueries = st.dataQueries := by
    rw [hDq, hCv.2.2.2.1, hBq, hAq, h1q]
  have hDdqmnil : sD.dataQueryMapping = [] := by
    rw [hDdqm, hCv.2.2.2.2.1, hBdqm, hAdqm, h1dqm]
  have hDnext : st.nextId ≤ sD.store.nextId := by
    have : st.nextId ≤ s1.store.nextId := by rw [h1n]; omega
    exact Nat.le_trans this (Nat.le_trans hAn (Nat.le_trans hBn (Nat.le_trans hCv.2.2.2.2.2.2 hDn)))
  -- query creation fold
  obtain ⟨qrows0, hq1, hq2, hq3, hq4, hq5, hq6⟩ := queryfold_spec p.dataQueries sD []
  rw [← hacc] at hq1 hq2 hq6
  -- projections preserved by the query fold
  have hQv : acc.1.store.appVersions = sD.store.appVersions := by
    rw [hacc]
    exact foldl_proj_eq _ (fun (a : ImportCtx × List Nat) => a.1.store.appVersions)
      (fun c a => (importDataQuery_frame c a).2.1) p.dataQueries (sD, [])
  have hQe : acc.1.store.appEnvironments = sD.store.appEnvironments := by
    rw [hacc]
    exact foldl_proj_eq _ (fun (a : ImportCtx × List Nat) => a.1.store.appEnvironments)
      (fun c a => (importDataQuery_frame c a).2.2.1) p.dataQueries (sD, [])
  have hQs : acc.1.store.dataSources = sD.store.dataSources := by
    rw [hacc]
    exact foldl_proj_eq _ (fun (a : ImportCtx × List Nat) => a.1.store.dataSources)
      (fun c a => (importDataQuery_frame c a).2.2.2.1) p.dataQueries (sD, [])
  have hQm : acc.1.appVersionMapping = sD.appVersionMapping := by
    rw [hacc]
    exact foldl_proj_eq _ (fun (a : ImportCtx × List Nat) => a.1.appVersionMapping)
      (fun c a => (importDataQuery_frame c a).2.2.2.2.2.2.2.2.2.1) p.dataQueries (sD, [])
  -- projections preserved by the remap fold
  have hEv : sE.store.appVersions = acc.1.store.appVersions := by
    rw [hsE]
    exact foldl_proj_eq _ (fun (c : ImportCtx) => c.store.appVersions)
      (fun c a => (remapNewDataQuery_frame c a).2.1) acc.2 acc.1
  have hEe : sE.store.appEnvironments = acc.1.store.appEnvironments := by
    rw [hsE]
    exact foldl_proj_eq _ (fun (c : ImportCtx) => c.store.appEnvironments)
      (fun c a => (remapNewDataQuery_frame c a).2.2.1) acc.2 acc.1
  have hEs : sE.store.dataSources = acc.1.store.dataSources := by
    rw [hsE]
    exact foldl_proj_eq _ (fun (c : ImportCtx) => c.store.dataSources)
      (fun c a => (remapNewDataQuery_frame c a).2.2.2.1) acc.2 acc.1
  have hEdqm : sE.dataQueryMapping = acc.1.dataQueryMapping := by
    rw [hsE]
    exact foldl_proj_eq _ (fun (c : ImportCtx) => c.dataQueryMapping)
      (fun c a => (remapNewDataQuery_frame c a).2.2.2.2.2.2.2.2.2.2.1) acc.2 acc.1
  have hEm : sE.appVersionMapping = acc.1.appVersionMapping := by
    rw [hsE]
    exact foldl_proj_eq _ (fun (c : ImportCtx) => c.appVersionMapping)
      (fun c a => (remapNewDataQuery_frame c a).2.2.2.2.2.2.2.2.2.2.2.1) acc.2 acc.1
  -- composite facts at sE
  have havers : sE.store.appVersions
      = st.appVersions ++ [{ id := st.nextId + 1, appId := st.nextId, name := iv.name, definition := iv.definition, updatedAt := st.clock }] := by
    rw [hEv, hQv, hDv, hCv.1, hBv, hAv, h1v]
  have haenvlen : sE.store.appEnvironments.length
      = st.appEnvironments.length + p.appEnvironments.length := by
    rw [hEe, hQe, hDe, hCv.2.1, hBe]
    exact hAe
  have hasrclen : sE.store.dataSources.length
      = st.dataSources.length + p.dataSources.length := by
    rw [hEs, hQs, hDs, hCv.2.2.1]
    exact hBsrc
  have havm : sE.appVersionMapping = [(iv.id, st.nextId + 1)] := by
    rw [hEm, hQm, hDm, hCv.2.2.2.2.2.1, hBm, hAm, h1m]
  -- the remap fold rewrites exactly the new rows
  have hnodup : acc.2.Nodup := by
    rw [hq2, List.nil_append]
    exact hq5.imp (fun hab => Nat.ne_of_lt hab)
  have hidsmem : ∀ i ∈ acc.2, sD.store.nextId ≤ i := by
    intro i hi
    rw [hq2, List.nil_append] at hi
    obtain ⟨r, hr, rfl⟩ := List.mem_map.mp hi
    exact hq4 r hr
  set qrows1 := qrows0.map (fun q =>
      { q with options := replaceDataQueryOptionsWithNewDataQueryIds q.options acc.1.dataQueryMapping })
    with hqrows1
  have hErows : sE.store.dataQueries = st.dataQueries ++ qrows1 := by
    rw [hqrows1, hsE, remapfold_spec acc.2 acc.1 hnodup, hq1, hDqst, List.map_append]
    congr 1
    · apply map_id_of_all
      intro q hq
      have hlt := hwfq q hq
      have hnm : ¬ q.id ∈ acc.2 := by
        intro hmem
        have := hidsmem q.id hmem
        omega
      rw [contains_eq_false_of_not_mem_nat hnm]
      simp
    · apply List.map_congr_left
      intro q hq
      have hmem : q.id ∈ acc.2 := by
        rw [hq2, List.nil_append]
        exact List.mem_map.mpr ⟨q, hq, rfl⟩
      rw [contains_of_mem_nat hmem]
      simp
  have hids1 : qrows1.map (fun r => r.id) = qrows0.map (fun r => r.id) := by
    simp only [hqrows1, List.map_map, Function.comp_def]
  have hmapval : ∀ kv ∈ acc.1.dataQueryMapping, ∃ r ∈ qrows0, kv.2 = r.id := by
    intro kv hkv
    rcases hq6 kv hkv with h | h
    · exact h
    · rw [hDdqmnil] at h
      simp at h
  have hresolve : ∀ (e : Event),
      (e.queryId = none ∨ ∃ kv ∈ acc.1.dataQueryMapping, e.queryId = some kv.2) →
      e.queryId = none ∨ ∃ i ∈ qrows1.map (fun r => r.id), e.queryId = some i := by
    intro e h
    rcases h with h | ⟨kv, hkv, heq⟩
    · exact Or.inl h
    · obtain ⟨r0, hr0, hkv2⟩ := hmapval kv hkv
      refine Or.inr ⟨r0.id, ?_, ?_⟩
      · rw [hids1]
        exact List.mem_map.mpr ⟨r0, hr0, rfl⟩
      · rw [heq, hkv2]
  -- the definition rewrite
  have hlook : idLookup sE.appVersionMapping iv.id = some (st.nextId + 1) := by
    rw [havm]
    exact idLookup_set_self [] iv.id (st.nextId + 1)
  set s2 := updateVersionDefinition sE iv with hs2
  have h2fr := updateVersionDefinition_frame sE iv
  have h2e : s2.store.appEnvironments = sE.store.appEnvironments := h2fr.2.1
  have h2s : s2.store.dataSources = sE.store.dataSources := h2fr.2.2.1
  have h2q : s2.store.dataQueries = sE.store.dataQueries := h2fr.2.2.2.2.1
  have h2avm : s2.appVersionMapping = sE.appVersionMapping := h2fr.2.2.2.2.2.2.2.2.2.2.2.1
  have h2v : s2.store.appVersions
      = st.appVersions
        ++ [{ id := st.nextId + 1, appId := st.nextId, name := iv.name,
              definition := replaceDataQueryIdWithinDefinitions iv.definition acc.1.dataQueryMapping,
              updatedAt := st.clock }] := by
    rw [hs2]
    unfold updateVersionDefinition
    rw [hlook]
    dsimp only
    rw [havers, List.map_append]
    congr 1
    · apply map_id_of_all
      intro v hv
      have hlt := hwfv v hv
      rw [if_neg (by omega)]
    · simp [hEdqm]
  -- the editing-version touch
  have hs2avm : s2.appVersionMapping = [(iv.id, st.nextId + 1)] := h2avm.trans havm
  have hlast : p.appVersions.getLast? = some iv := by
    rw [hpv]
    rfl
  have hlook2 : idLookup s2.appVersionMapping iv.id = some (st.nextId + 1) := by
    rw [hs2avm]
    exact idLookup_set_self [] iv.id (st.nextId + 1)
  set sF := setEditingVersionAsLatestVersion s2.store s2.appVersionMapping p.appVersions with hsF
  have hFv : sF.appVersions
      = st.appVersions
        ++ [{ id := st.nextId + 1, appId := st.nextId, name := iv.name,
              definition := replaceDataQueryIdWithinDefinitions iv.definition acc.1.dataQueryMapping,
              updatedAt := s2.store.clock }] := by
    rw [hsF]
    unfold setEditingVersionAsLatestVersion
    rw [hlast]
    dsimp only [Store.tick]
    rw [hlook2, h2v, List.map_append]
    congr 1
    · apply map_id_of_all
      intro v hv
      have hlt := hwfv v hv
      rw [if_neg (by simp only [Option.some.injEq]; omega)]
    · simp
  -- bridge to the full pipeline
  have hassoc : importVersionAssociations p s1 iv = s2 := rfl
  have hs0x : ImportCtx.mk s0.store [] [] [] [] [] [] = s0 := by
    rw [hs0]
  have hbuild : buildImportedAppAssociations s0.store shell p
      = setEditingVersionAsLatestVersion s2.store s2.appVersionMapping p.appVersions := by
    unfold buildImportedAppAssociations
    rw [hpv]
    simp only [List.foldl_cons, List.foldl_nil]
    rw [hs0x, ← hs1, hassoc]
  have hadm := createAdminGroupPermissions_frame (buildImportedAppAssociations s0.store shell p) shell
  have hsetfr := setEditingVersionAsLatestVersion_frame s2.store s2.appVersionMapping p.appVersions
  have hprojv : (importForUser st u p).1.appVersions
      = (createAdminGroupPermissions (buildImportedAppAssociations s0.store shell p) shell).appVersions := rfl
  have hproje : (importForUser st u p).1.appEnvironments
      = (createAdminGroupPermissions (buildImportedAppAssociations s0.store shell p) shell).appEnvironments := rfl
  have hprojs : (importForUser st u p).1.dataSources
      = (createAdminGroupPermissions (buildImportedAppAssociations s0.store shell p) shell).dataSources := rfl
  have hprojq : (importForUser st u p).1.dataQueries
      = (createAdminGroupPermissions (buildImportedAppAssociations s0.store shell p) shell).dataQueries := rfl
  have hfinv : (importForUser st u p).1.appVersions = sF.appVersions := by
    rw [hprojv, hadm.2.1, hbuild, ← hsF]
  have hfine : (importForUser st u p).1.appEnvironments = s2.store.appEnvironments := by
    rw [hproje, hadm.2.2.1, hbuild]
    exact hsetfr.2.1
  have hfins : (importForUser st u p).1.dataSources = s2.store.dataSources := by
    rw [hprojs, hadm.2.2.2.1, hbuild]
    exact hsetfr.2.2.1
  have hfinq : (importForUser st u p).1.dataQueries = s2.store.dataQueries := by
    rw [hprojq, hadm.2.2.2.2.2.1, hbuild]
    exact hsetfr.2.2.2.2.1
  -- assemble
  refine ⟨{ id := st.nextId + 1, appId := st.nextId, name := iv.name,
            definition := replaceDataQueryIdWithinDefinitions iv.definition acc.1.dataQueryMapping,
            updatedAt := s2.store.clock },
          qrows1, ?_, ?_, ?_, ?_, ?_, ?_, ?_, ?_⟩
  · rw [hfinv, hFv]
  · rw [hfine, h2e]
    exact haenvlen
  · rw [hfins, h2s]
    exact hasrclen
  · rw [hfinq, h2q]
    exact hErows
  · rw [hqrows1, List.length_map]
    exact hq3
  · intro r hr
    rw [hqrows1] at hr
    obtain ⟨r0, hr0, rfl⟩ := List.mem_map.mp hr
    exact Nat.le_trans hDnext (hq4 r0 hr0)
  · intro r hr e he
    rw [hqrows1] at hr
    obtain ⟨r0, hr0, rfl⟩ := List.mem_map.mp hr
    exact hresolve e (events_of_replace_options r0.options acc.1.dataQueryMapping e he)
  · intro e he
    exact hresolve e (events_of_replace_definition iv.definition acc.1.dataQueryMapping e he)

/-- C1 (amended to single-version snapshots).  Exporting an application
with exactly one version and at least one environment, then importing the
resulting snapshot — by any user — creates a new application whose counts
of versions, environments, data sources and data queries equal the counts
in the exported application, and every event binding's `queryId` in the
new application's query options and version definition resolves to a
query id created by that import; no new query row carries an id of the
exporting system.  (For multi-version snapshots the count part is false:
the per-version association loop re-creates the flat environment and query
lists once per version — see the counterexample.) -/
theorem c1_round_trip_single_version (st : Store) (ue ui : UserCtx) (appId : Nat)
    (snap : Snapshot) (v : AppVersionRow)
    (hexp : exportApp st ue appId = Except.ok snap)
    (hv : snap.appVersions = [v])
    (he : snap.appEnvironments.length ≠ 0)
    (hwfv : st.appVersions.all (fun w => decide (w.id < st.nextId)) = true)
    (hwfq : st.dataQueries.all (fun q => decide (q.id < st.nextId)) = true) :
    ∃ (w : AppVersionRow) (qrows : List DataQueryRow),
      (importForUser st ui (snapshotToParams snap)).1.appVersions = st.appVersions ++ [w]
      ∧ (importForUser st ui (snapshotToParams snap)).1.appVersions.length
        = st.appVersions.length + snap.appVersions.length
      ∧ (importForUser st ui (snapshotToParams snap)).1.appEnvironments.length
        = st.appEnvironments.length + snap.appEnvironments.length
      ∧ (importForUser st ui (snapshotToParams snap)).1.dataSources.length
        = st.dataSources.length + snap.dataSources.length
      ∧ (importForUser st ui (snapshotToParams snap)).1.dataQueries = st.dataQueries ++ qrows
      ∧ qrows.length = snap.dataQueries.length
      ∧ (∀ r ∈ qrows, (eventsOfQueryOptions r.options).all
            (queryIdResolves (qrows.map (fun t => t.id))) = true)
      ∧ (boundEventsOfDefinition w.definition).all
            (queryIdResolves (qrows.map (fun t => t.id))) = true
      ∧ (∀ r ∈ qrows, ∀ q ∈ snap.dataQueries, r.id ≠ q.id) := by
  -- expose the snapshot's structure
  rcases hfind : st.apps.find? (fun a => a.id == appId && a.organizationId == ue.organizationId)
    with _ | app
  · exfalso
    unfold exportApp at hexp
    rw [hfind] at hexp
    simp at hexp
  unfold exportApp at hexp
  rw [hfind] at hexp
  dsimp only at hexp
  injection hexp with hsnap
  have hAppv : snap.appVersions = st.appVersions.filter (fun w => w.appId == app.id) := by
    rw [← hsnap]
  have hSrcs : snap.dataSources
      = st.dataSources.filter (fun s =>
          memIds ((st.appVersions.filter (fun w => w.appId == app.id)).map (fun w => w.id))
            s.appVersionId) := by
    rw [← hsnap]
  have hQrs : snap.dataQueries
      = st.dataQueries.filter (fun q =>
          memIds ((st.dataSources.filter (fun s =>
              memIds ((st.appVersions.filter (fun w => w.appId == app.id)).map (fun w => w.id))
                s.appVersionId)).map (fun s => s.id))
            q.dataSourceId) := by
    rw [← hsnap]
  -- the import input derived from the snapshot
  have hpv2 : (snapshotToParams snap).appVersions
      = [({ id := v.id, name := v.name, definition := v.definition } : InAppVersion)] := by
    show snap.appVersions.map _ = _
    rw [hv]
    rfl
  have hE2 : ¬ (snapshotToParams snap).appEnvironments.length = 0 := by
    show ¬ (snap.appEnvironments.map _).length = 0
    rw [List.length_map]
    exact he
  have hvids : (st.appVersions.filter (fun w => w.appId == app.id)).map (fun w => w.id)
      = [v.id] := by
    rw [← hAppv, hv]
    rfl
  have hsrc2 : ∀ a ∈ (snapshotToParams snap).dataSources, a.appVersionId = some v.id := by
    intro a ha
    have ha2 : a ∈ snap.dataSources.map (fun s =>
        ({ id := s.id, name := s.name, kind := s.kind, appVersionId := s.appVersionId,
           options := none } : InDataSource)) := ha
    obtain ⟨s, hs, rfl⟩ := List.mem_map.mp ha2
    show s.appVersionId = some v.id
    have hsmem : s ∈ st.dataSources.filter (fun s2 =>
        memIds ((st.appVersions.filter (fun w => w.appId == app.id)).map (fun w => w.id))
          s2.appVersionId) := by
      rw [← hSrcs]
      exact hs
    have hpred := (List.mem_filter.mp hsmem).2
    rw [hvids] at hpred
    rcases hsa : s.appVersionId with _ | b
    · rw [hsa] at hpred
      simp [memIds] at hpred
    · rw [hsa] at hpred
      have hb : b ∈ [v.id] := by
        have h2 : [v.id].contains b = true := hpred
        simp only [List.contains, List.elem_eq_mem, decide_eq_true_eq] at h2
        exact h2
      rw [List.mem_singleton.mp hb]
  have hwfv2 : ∀ w ∈ st.appVersions, w.id < st.nextId := by
    intro w hw
    exact of_decide_eq_true (List.all_eq_true.mp hwfv w hw)
  have hwfq2 : ∀ q ∈ st.dataQueries, q.id < st.nextId := by
    intro q hq
    exact of_decide_eq_true (List.all_eq_true.mp hwfq q hq)
  have holdq : ∀ q ∈ snap.dataQueries, q.id < st.nextId := by
    intro q hq
    rw [hQrs] at hq
    exact hwfq2 q (List.mem_filter.mp hq).1
  -- run the single-version import theorem
  obtain ⟨w, qrows, hc1, hc2, hc3, hc4, hc5, hc6, hc7, hc8⟩ :=
    importForUser_single_version st ui (snapshotToParams snap)
      { id := v.id, name := v.name, definition := v.definition }
      hpv2 hE2 hsrc2 hwfv2 hwfq2
  have hplenE : (snapshotToParams snap).appEnvironments.length
      = snap.appEnvironments.length := by
    show (snap.appEnvironments.map _).length = _
    rw [List.length_map]
  have hplenS : (snapshotToParams snap).dataSources.length = snap.dataSources.length := by
    show (snap.dataSources.map _).length = _
    rw [List.length_map]
  have hplenQ : (snapshotToParams snap).dataQueries.length = snap.dataQueries.length := by
    show (snap.dataQueries.map _).length = _
    rw [List.length_map]
  have hbr : ∀ (e : Event),
      (e.queryId = none ∨ ∃ i ∈ qrows.map (fun r => r.id), e.queryId = some i) →
      queryIdResolves (qrows.map (fun t => t.id)) e = true := by
    intro e h
    rcases h with h | ⟨i, hi, heq⟩
    · unfold queryIdResolves
      rw [h]
    · unfold queryIdResolves
      rw [heq]
      exact contains_of_mem_nat hi
  refine ⟨w, qrows, hc1, ?_, ?_, ?_, hc4, ?_, ?_, ?_, ?_⟩
  · rw [hc1, List.length_append, hv]
    rfl
  · rw [hc2, hplenE]
  · rw [hc3, hplenS]
  · rw [hc5]
    exact hplenQ
  · intro r hr
    apply List.all_eq_true.mpr
    intro e he2
    exact hbr e (hc7 r hr e he2)
  · apply List.all_eq_true.mpr
    intro e he2
    exact hbr e (hc8 e he2)
  · intro r hr q hq
    have h1 := hc6 r hr
    have h2 := holdq q hq
    omega

/-- Witness for C1: the round-trip on `rtStore`'s single-version
application (one environment, one data source with options, one
self-referencing query, a table component bound to the query). -/
theorem c1_round_trip_single_version_witness :
    (exportApp rtStore user0 1 = Except.ok rtSnap
      ∧ rtSnap.appVersions = [rtVersionRow]
      ∧ rtSnap.appEnvironments.length ≠ 0
      ∧ rtStore.appVersions.all (fun w => decide (w.id < rtStore.nextId)) = true
      ∧ rtStore.dataQueries.all (fun q => decide (q.id < rtStore.nextId)) = true)
    ∧ (∃ (w : AppVersionRow) (qrows : List DataQueryRow),
        (importForUser rtStore user0 (snapshotToParams rtSnap)).1.appVersions
          = rtStore.appVersions ++ [w]
        ∧ (importForUser rtStore user0 (snapshotToParams rtSnap)).1.appVersions.length
          = rtStore.appVersions.length + rtSnap.appVersions.length
        ∧ (importForUser rtStore user0 (snapshotToParams rtSnap)).1.appEnvironments.length
          = rtStore.appEnvironments.length + rtSnap.appEnvironments.length
        ∧ (importForUser rtStore user0 (snapshotToParams rtSnap)).1.dataSources.length
          = rtStore.dataSources.length + rtSnap.dataSources.length
        ∧ (importForUser rtStore user0 (snapshotToParams rtSnap)).1.dataQueries
          = rtStore.dataQueries ++ qrows
        ∧ qrows.length = rtSnap.dataQueries.length
        ∧ (∀ r ∈ qrows, (eventsOfQueryOptions r.options).all
              (queryIdResolves (qrows.map (fun t => t.id))) = true)
        ∧ (boundEventsOfDefinition w.definition).all
              (queryIdResolves (qrows.map (fun t => t.id))) = true
        ∧ (∀ r ∈ qrows, ∀ q ∈ rtSnap.dataQueries, r.id ≠ q.id)) :=
  ⟨⟨rfl, rfl, by decide, by decide, by decide⟩,
   c1_round_trip_single_version rtStore user0 user0 1 rtSnap rtVersionRow rfl rfl
     (by decide) (by decide) (by decide)⟩

/-- Counterexample to C1 as stated (all snapshots): exporting the
two-version application of `twoVersionStore` yields a snapshot with two
versions, one data query and one environment, but importing it creates
two new queries and two new environments — the flat query and environment
lists are re-created once per version — so the imported application's
counts differ from the exported application's. -/
theorem c1_counterexample :
    ((exportApp twoVersionStore user0 1).toOption.map (fun snap =>
        (snap.appVersions.length, snap.dataQueries.length,
         (importForUser twoVersionStore user0 (snapshotToParams snap)).1.dataQueries.length,
         snap.appEnvironments.length,
         (importForUser twoVersionStore user0 (snapshotToParams snap)).1.appEnvironments.length)))
      = some (2, 1, 3, 1, 3) := by decide

end ToolJet
